import Mathlib

/-!
Shallow embedding of the `mcstructure` voxel model
(`src/mcstructure/__init__.py`): blocks, the deduplicating palette, the
dense index grid, and the mutation / query / (de)serialization
operations.  The NBT byte codec itself is an external library
(`nbtx`), out of scope per the specification; serialization is
modelled at the level of the document tree (`Doc`) that `as_nbt`
produces and `load` consumes.

Conventions:
* machine integers are `Int` (indices may be `-1`);
* the numpy 3-d array is a function `Nat → Nat → Nat → Int` together
  with its `size`; cells outside the size are never consulted;
* fallible operations (Python exceptions) return `Option` / `Except`.
-/

namespace Mcstructure

/-- Block state values: `str | bool | int` in the Python source. -/
inductive StateValue where
  | str (s : String)
  | intv (n : Int)
  | boolv (b : Bool)
deriving DecidableEq, Repr

/-- Python numeric view of a state value: `True == 1`, `False == 0`,
strings are only equal to strings. -/
def StateValue.toPy : StateValue → String ⊕ Int
  | .str s => .inl s
  | .intv n => .inr n
  | .boolv b => .inr (if b then 1 else 0)

/-- Python `==` on state values (`bool` is a subtype of `int`). -/
def svEq : StateValue → StateValue → Bool
  | .str a, .str b => decide (a = b)
  | .intv a, .intv b => decide (a = b)
  | .boolv a, .boolv b => decide (a = b)
  | .boolv a, .intv b => decide ((if a then (1 : Int) else 0) = b)
  | .intv a, .boolv b => decide (a = if b then (1 : Int) else 0)
  | _, _ => false

/-- The `states` mapping of a block: a Python `dict` built from
keyword arguments, i.e. an insertion-ordered association list with
unique keys. -/
abbrev States := List (String × StateValue)

/-- One-sided Python dict comparison: every pair of `a` is present in
`b` with an `==`-equal value. -/
def dictContains (a b : States) : Bool :=
  a.all fun p =>
    match b.lookup p.1 with
    | some v => svEq p.2 v
    | none => false

/-- Python `==` on `dict`s (for the unique-key dicts produced by
keyword arguments): same keys, `==`-equal values. -/
def dictEq (a b : States) : Bool := dictContains a b && dictContains b a

/-- `Block` dataclass: identifier, states, waterlogged flag. -/
structure Block where
  identifier : String
  states : States
  waterlogged : Bool
deriving DecidableEq, Repr

/-- Python `==` on `Block` (dataclass field-wise comparison). -/
def blockEq (a b : Block) : Bool :=
  decide (a.identifier = b.identifier) && dictEq a.states b.states
    && decide (a.waterlogged = b.waterlogged)

def airBlock : Block := ⟨"minecraft:air", [], false⟩

/-- The sentinel returned by `get_block` for void cells. -/
def voidBlock : Block := ⟨"minecraft:structure_void", [], false⟩

/-- The module-level `_WATER = Block("minecraft:water", liquid_depth=0)`. -/
def waterBlock : Block := ⟨"minecraft:water", [("liquid_depth", .intv 0)], false⟩

/-- Blocks used as concrete test data (`Block("minecraft:dirt")`,
also in its waterlogged variant). -/
def dirtBlock : Block := ⟨"minecraft:dirt", [], false⟩

def wdirtBlock : Block := ⟨"minecraft:dirt", [], true⟩

def STRUCTURE_MAX_SIZE : Nat × Nat × Nat := (64, 384, 64)

/-- `has_suitable_size`: every dimension within `STRUCTURE_MAX_SIZE`. -/
def has_suitable_size (size : Nat × Nat × Nat) : Bool :=
  decide (size.1 ≤ STRUCTURE_MAX_SIZE.1)
    && decide (size.2.1 ≤ STRUCTURE_MAX_SIZE.2.1)
    && decide (size.2.2 ≤ STRUCTURE_MAX_SIZE.2.2)

/-- `list.index` / first index satisfying a predicate. -/
def findIdxA {α : Type} (p : α → Bool) : List α → Option Nat
  | [] => none
  | a :: as => if p a then some 0 else (findIdxA p as).map (· + 1)

/-- `Structure._add_block_to_palette`: `None ↦ -1`; an `==`-equal
entry yields its (first) index; otherwise the block is appended. -/
def addBlockToPalette (pal : List Block) : Option Block → Int × List Block
  | none => (-1, pal)
  | some b =>
    match findIdxA (fun x => blockEq b x) pal with
    | some i => ((i : Int), pal)
    | none => ((pal.length : Int), pal ++ [b])

/-- `Structure._water_index`: index of `_WATER`, inserting it when
absent. -/
def waterIdx (pal : List Block) : Int × List Block :=
  match findIdxA (fun bl => blockEq bl waterBlock) pal with
  | some i => ((i : Int), pal)
  | none => addBlockToPalette pal (some waterBlock)

/-- The palette invariant: no two entries are `==`-equal (pairwise). -/
def palNoDup : List Block → Bool
  | [] => true
  | b :: rest => (rest.all fun x => !blockEq b x) && palNoDup rest

/-- numpy indexing on one axis of extent `n`: negative indices in
`[-n, 0)` wrap, anything else out of `[-n, n)` is an `IndexError`. -/
def npIndex (n : Nat) (i : Int) : Option Nat :=
  let j : Int := if i < 0 then (n : Int) + i else i
  if 0 ≤ j ∧ j < (n : Int) then some j.toNat else none

/-- Python list indexing (negative indices wrap from the end). -/
def pyListGet {α : Type} (l : List α) (i : Int) : Option α :=
  if i < 0 then
    if 0 ≤ (l.length : Int) + i then l[((l.length : Int) + i).toNat]? else none
  else l[i.toNat]?

/-- Normalized bound of a step-1 Python slice index on an axis of
extent `n`. -/
def sliceLo (n : Nat) (i : Int) : Nat :=
  if i < 0 then ((n : Int) + i).toNat else min i.toNat n

/-- Python exception classes reachable from the modelled operations. -/
inductive PyErr where
  | valueError
  | keyError
  | indexError
deriving DecidableEq, Repr

/-- In-memory `Structure`: a size, the dense index grid (numpy array,
modelled as a function; cells outside `size` are irrelevant), the
palette and the opaque entity blobs. -/
structure Structure where
  size : Nat × Nat × Nat
  grid : Nat → Nat → Nat → Int
  palette : List Block
  entities : List Nat

/-- `Structure.__init__(size, fill)`: `fill=None` gives an all `-1`
grid and empty palette, otherwise an all `0` grid and palette
`[fill]`.  No size validation is performed by the source. -/
def Structure.init (size : Nat × Nat × Nat) (fill : Option Block) : Structure :=
  match fill with
  | none => ⟨size, fun _ _ _ => -1, [], []⟩
  | some b => ⟨size, fun _ _ _ => 0, [b], []⟩

/-- `Structure.get_block`: numpy coordinate lookup (wrapping negative
indices), palette resolution, `-1` resolving to the void sentinel.
`none` models `IndexError`. -/
def Structure.get_block (s : Structure) (c : Int × Int × Int) : Option Block :=
  match npIndex s.size.1 c.1, npIndex s.size.2.1 c.2.1, npIndex s.size.2.2 c.2.2 with
  | some x, some y, some z =>
    let i := s.grid x y z
    if 0 ≤ i then s.palette[i.toNat]? else some voidBlock
  | _, _, _ => none

/-- `Structure.set_block`: intern the block, then assign one cell
(numpy indexing).  `none` models the `IndexError` for an out-of-range
coordinate (the Python exception then leaves the palette mutation
behind, which no caller can observe through the failed call). -/
def Structure.set_block (s : Structure) (c : Int × Int × Int) (b : Option Block) :
    Option Structure :=
  let r := addBlockToPalette s.palette b
  match npIndex s.size.1 c.1, npIndex s.size.2.1 c.2.1, npIndex s.size.2.2 c.2.2 with
  | some x, some y, some z =>
    some { s with palette := r.2,
                  grid := fun x' y' z' =>
                    if x' = x ∧ y' = y ∧ z' = z then r.1 else s.grid x' y' z' }
  | _, _, _ => none

/-- `Structure.add_entity`. -/
def Structure.add_entity (s : Structure) (e : Nat) : Structure :=
  { s with entities := s.entities ++ [e] }

/-- `Structure.set_blocks`: the source assigns an
`(|fx-tx|+1, |fy-ty|+1, |fz-tz|+1)`-shaped constant array into the
slice `[fx:tx+1, fy:ty+1, fz:tz+1]`; numpy raises `ValueError`
(modelled as `none`) unless on each axis the slice extent matches the
array extent or the array extent is 1. -/
def Structure.set_blocks (s : Structure) (f t : Int × Int × Int) (b : Option Block) :
    Option Structure :=
  let r := addBlockToPalette s.palette b
  let lo1 := sliceLo s.size.1 f.1
  let hi1 := sliceLo s.size.1 (t.1 + 1)
  let lo2 := sliceLo s.size.2.1 f.2.1
  let hi2 := sliceLo s.size.2.1 (t.2.1 + 1)
  let lo3 := sliceLo s.size.2.2 f.2.2
  let hi3 := sliceLo s.size.2.2 (t.2.2 + 1)
  let r1 := (f.1 - t.1).natAbs + 1
  let r2 := (f.2.1 - t.2.1).natAbs + 1
  let r3 := (f.2.2 - t.2.2).natAbs + 1
  if (hi1 - lo1 = r1 ∨ r1 = 1) ∧ (hi2 - lo2 = r2 ∨ r2 = 1) ∧ (hi3 - lo3 = r3 ∨ r3 = 1) then
    some { s with palette := r.2,
                  grid := fun x y z =>
                    if (lo1 ≤ x ∧ x < hi1) ∧ (lo2 ≤ y ∧ y < hi2) ∧ (lo3 ≤ z ∧ z < hi3)
                    then r.1 else s.grid x y z }
  else none

/-- `Structure.resize`: intern `fill` (this happens even when the
shape is unchanged), keep the element-wise-min overlap, fill the rest
with the interned index (`-1` for `fill=None`). -/
def Structure.resize (s : Structure) (nsz : Nat × Nat × Nat) (fill : Option Block) :
    Structure :=
  let r := addBlockToPalette s.palette fill
  if s.size = nsz then { s with palette := r.2 }
  else
    { size := nsz, palette := r.2, entities := s.entities,
      grid := fun x y z =>
        if x < min s.size.1 nsz.1 ∧ y < min s.size.2.1 nsz.2.1 ∧ z < min s.size.2.2 nsz.2.2
        then s.grid x y z else r.1 }

/-- Sequential interning of a palette into another, returning the
old-index to new-index map and the extended palette (the dict
comprehension in `Structure.combine`). -/
def internAll (pal : List Block) : List Block → List Int × List Block
  | [] => ([], pal)
  | b :: rest =>
    let r := addBlockToPalette pal (some b)
    let q := internAll r.2 rest
    (r.1 :: q.1, q.2)

/-- Source index used by a broadcast numpy assignment on one axis:
when the source extent equals the target extent the offset is used,
otherwise (source extent 1) everything reads index 0. -/
def bcast (srcDim extent idx : Nat) : Nat := if srcDim = extent then idx else 0

/-- The palette remapping applied to `other`'s cells in `combine`:
indices present in the old-index→new-index map are remapped, anything
else (in particular `-1`) is left unchanged. -/
def remapIdx (mapping : List Int) (n : Nat) (i : Int) : Int :=
  if 0 ≤ i ∧ i < (n : Int) then (mapping[i.toNat]?).getD i else i

/-- The grid of a successful `combine`: first `self` is copied to the
origin, then `other`'s remapped grid is broadcast-assigned onto the
region from `(px, py, pz)` onward, and everything else stays void. -/
def combineGrid (s o : Structure) (px py pz : Nat) (x y z : Nat) : Int :=
  if px ≤ x ∧ py ≤ y ∧ pz ≤ z then
    remapIdx (internAll s.palette o.palette).1 o.palette.length
      (o.grid (bcast o.size.1 (max s.size.1 (px + o.size.1) - px) (x - px))
              (bcast o.size.2.1 (max s.size.2.1 (py + o.size.2.1) - py) (y - py))
              (bcast o.size.2.2 (max s.size.2.2 (pz + o.size.2.2) - pz) (z - pz)))
  else if x < s.size.1 ∧ y < s.size.2.1 ∧ z < s.size.2.2 then s.grid x y z
  else -1

/-- The structure a successful `combine` returns. -/
def combineOk (s o : Structure) (px py pz : Nat) : Structure :=
  { size := (max s.size.1 (px + o.size.1), max s.size.2.1 (py + o.size.2.1),
             max s.size.2.2 (pz + o.size.2.2)),
    palette := (internAll s.palette o.palette).2,
    entities := [],
    grid := combineGrid s o px py pz }

/-- `Structure.combine`: rejects negative positions, sizes the result
with `max`, copies `self` at the origin, interns `other`'s palette,
remaps and overlays `other`'s grid onto the region from `position`
onwards (`combined.structure[ox:, oy:, oz:] = remapped`); numpy
broadcasts that assignment, so an axis where `other`'s extent is
neither the remaining extent nor 1 raises `ValueError`, and an axis of
extent 1 is replicated across the remaining extent.  The combined
structure starts from `Structure(new_size, None)`, so its entity list
is empty. -/
def Structure.combine (s o : Structure) (p : Int × Int × Int) : Except PyErr Structure :=
  if p.1 < 0 ∨ p.2.1 < 0 ∨ p.2.2 < 0 then .error .valueError
  else
    let px := p.1.toNat
    let py := p.2.1.toNat
    let pz := p.2.2.toNat
    if (o.size.1 = max s.size.1 (px + o.size.1) - px ∨ o.size.1 = 1)
        ∧ (o.size.2.1 = max s.size.2.1 (py + o.size.2.1) - py ∨ o.size.2.1 = 1)
        ∧ (o.size.2.2 = max s.size.2.2 (pz + o.size.2.2) - pz ∨ o.size.2.2 = 1) then
      .ok (combineOk s o px py pz)
    else .error .valueError

/-- C-order (row-major) flat offset of a cell, as used by numpy
`flatten` and `reshape`. -/
def flatIdx (sz : Nat × Nat × Nat) (x y z : Nat) : Nat := (x * sz.2.1 + y) * sz.2.2 + z

def volume (sz : Nat × Nat × Nat) : Nat := sz.1 * sz.2.1 * sz.2.2

/-- `structure.flatten()`: the grid as a C-order flat list. -/
def buildGrid (sz : Nat × Nat × Nat) (f : Nat → Nat → Nat → Int) : List Int :=
  (List.range (volume sz)).map fun n =>
    f (n / (sz.2.1 * sz.2.2)) (n / sz.2.2 % sz.2.1) (n % sz.2.2)

/-- One cell of the secondary (waterlog) index layer: read the cell's
palette entry with Python list indexing (`-1` wraps to the LAST
entry, an empty palette raises `IndexError`), then either `-1` or the
(possibly freshly inserted) water index. -/
def secStep (pal : List Block) (i : Int) : Option (Int × List Block) :=
  match pyListGet pal i with
  | none => none
  | some b => if b.waterlogged then some (waterIdx pal) else some (-1, pal)

/-- The whole secondary layer, threading the palette (which
`_water_index` may extend mid-serialization). -/
def secondaryList (pal : List Block) : List Int → Option (List Int × List Block)
  | [] => some ([], pal)
  | i :: rest =>
    match secStep pal i with
    | none => none
    | some r =>
      match secondaryList r.2 rest with
      | none => none
      | some q => some (r.1 :: q.1, q.2)

/-- The document tree written by `as_nbt` / parsed by `load`.  The
serialized palette entries carry only `{name, states}` (plus the fixed
version stamp); the waterlogged flag is not serialized per entry. -/
structure Doc where
  size : Option (Nat × Nat × Nat)
  primary : List Int
  secondary : List Int
  blockPalette : List (String × States)
  entities : List Nat
deriving DecidableEq, Repr

/-- `Structure.as_nbt`: primary layer, then the secondary layer (this
may extend the palette), then the palette as `{name, states}` pairs.
`none` models the `IndexError` raised while building the secondary
layer. -/
def Structure.as_nbt (s : Structure) : Option Doc :=
  let primary := buildGrid s.size s.grid
  match secondaryList s.palette primary with
  | none => none
  | some r =>
    some { size := some s.size, primary := primary, secondary := r.1,
           blockPalette := r.2.map (fun b => (b.identifier, b.states)),
           entities := s.entities }

/-- `Structure.dump` delegates to `as_nbt`; the byte codec (`nbtx`) is
external and treated as a faithful bridge. -/
def Structure.dump (s : Structure) : Option Doc := s.as_nbt

/-- `Structure.load`: absent `size` raises `KeyError`; a flat index
count differing from the size product raises `ValueError` (numpy
`reshape`); the palette is rebuilt from `{name, states}` with the
waterlogged flag read from `block_indices[1]` at the PALETTE position
(`IndexError` when the palette is longer than the secondary layer).
Palette bounds of index values are not validated. -/
def Structure.load (d : Doc) : Except PyErr Structure :=
  match d.size with
  | none => .error .keyError
  | some sz =>
    if d.primary.length = volume sz then
      if d.blockPalette.length ≤ d.secondary.length then
        .ok { size := sz,
              grid := fun x y z => (d.primary[flatIdx sz x y z]?).getD 0,
              palette := d.blockPalette.enum.map
                (fun e => ⟨e.2.1, e.2.2, ((d.secondary[e.1]?).getD 0) != -1⟩),
              entities := d.entities }
      else .error .indexError
    else .error .valueError

/-- Well-formedness of an in-memory structure: every in-bounds cell
holds `-1` or a valid palette index.  Holds for everything built via
the public API. -/
def Structure.wf (s : Structure) : Bool :=
  (List.range s.size.1).all fun x =>
    (List.range s.size.2.1).all fun y =>
      (List.range s.size.2.2).all fun z =>
        decide (-1 ≤ s.grid x y z) && decide (s.grid x y z < (s.palette.length : Int))

/-! ### Properties of the equality notions -/

theorem svEq_iff {a b : StateValue} : svEq a b = true ↔ a.toPy = b.toPy := by
  cases a <;> cases b <;> simp [svEq, StateValue.toPy]
  rename_i x y
  cases x <;> cases y <;> simp

theorem svEq_symm {a b : StateValue} (h : svEq a b = true) : svEq b a = true :=
  svEq_iff.mpr (svEq_iff.mp h).symm

theorem svEq_trans {a b c : StateValue} (h1 : svEq a b = true) (h2 : svEq b c = true) :
    svEq a c = true :=
  svEq_iff.mpr ((svEq_iff.mp h1).trans (svEq_iff.mp h2))

theorem lookup_mem {l : States} {k : String} {v : StateValue}
    (h : l.lookup k = some v) : (k, v) ∈ l := by
  induction l with
  | nil => simp [List.lookup] at h
  | cons p t ih =>
    obtain ⟨k', v'⟩ := p
    rw [List.lookup] at h
    cases hk : (k == k') with
    | true =>
      rw [hk] at h
      simp only [Option.some.injEq] at h
      subst h
      have hkk : k = k' := eq_of_beq hk
      subst hkk
      exact List.mem_cons_self _ _
    | false =>
      rw [hk] at h
      exact List.mem_cons_of_mem _ (ih h)

theorem dictContains_iff {a b : States} :
    dictContains a b = true ↔
      ∀ p ∈ a, ∃ v, b.lookup p.1 = some v ∧ svEq p.2 v = true := by
  rw [dictContains, List.all_eq_true]
  refine forall_congr' fun p => forall_congr' fun _ => ?_
  cases hb : b.lookup p.1 <;> simp

theorem dictContains_trans {a b c : States} (h1 : dictContains a b = true)
    (h2 : dictContains b c = true) : dictContains a c = true := by
  rw [dictContains_iff] at h1 h2 ⊢
  intro p hp
  obtain ⟨v, hv, hsv⟩ := h1 p hp
  obtain ⟨w, hw, hsw⟩ := h2 (p.1, v) (lookup_mem hv)
  exact ⟨w, hw, svEq_trans hsv hsw⟩

theorem dictEq_symm {a b : States} (h : dictEq a b = true) : dictEq b a = true := by
  rw [dictEq, Bool.and_eq_true] at h ⊢
  exact ⟨h.2, h.1⟩

theorem dictEq_trans {a b c : States} (h1 : dictEq a b = true) (h2 : dictEq b c = true) :
    dictEq a c = true := by
  rw [dictEq, Bool.and_eq_true] at h1 h2 ⊢
  exact ⟨dictContains_trans h1.1 h2.1, dictContains_trans h2.2 h1.2⟩

theorem blockEq_symm {a b : Block} (h : blockEq a b = true) : blockEq b a = true := by
  rw [blockEq, Bool.and_eq_true, Bool.and_eq_true] at h ⊢
  refine ⟨⟨?_, dictEq_symm h.1.2⟩, ?_⟩ <;> simp_all

theorem blockEq_trans {a b c : Block} (h1 : blockEq a b = true) (h2 : blockEq b c = true) :
    blockEq a c = true := by
  rw [blockEq, Bool.and_eq_true, Bool.and_eq_true] at h1 h2 ⊢
  refine ⟨⟨?_, dictEq_trans h1.1.2 h2.1.2⟩, ?_⟩ <;> simp_all

theorem blockEq_comm (a b : Block) : blockEq a b = blockEq b a := by
  cases h : blockEq a b with
  | true => exact (blockEq_symm h).symm
  | false =>
    cases h' : blockEq b a with
    | true => exact absurd (blockEq_symm h') (by simp [h])
    | false => rfl

/-- `==`-equal blocks are interchangeable as search keys. -/
theorem blockEq_pred_ext {b b' : Block} (h : blockEq b b' = true) :
    (fun x => blockEq b x) = fun x => blockEq b' x := by
  funext x
  cases hx : blockEq b' x with
  | true => exact blockEq_trans h hx
  | false =>
    cases hbx : blockEq b x with
    | true => rw [blockEq_trans (blockEq_symm h) hbx] at hx; exact hx
    | false => rfl

/-! ### Properties of `findIdxA` -/

theorem findIdxA_eq_none {α : Type} {p : α → Bool} {l : List α} :
    findIdxA p l = none ↔ ∀ x ∈ l, p x = false := by
  induction l with
  | nil => simp [findIdxA]
  | cons a as ih =>
    rw [findIdxA]
    cases hpa : p a with
    | true => simp [hpa]
    | false => simpa [hpa] using ih

theorem findIdxA_some_spec {α : Type} {p : α → Bool} {l : List α} {i : Nat}
    (h : findIdxA p l = some i) :
    i < l.length ∧ (∃ x, l[i]? = some x ∧ p x = true)
      ∧ ∀ j, j < i → ∀ x, l[j]? = some x → p x = false := by
  induction l generalizing i with
  | nil => simp [findIdxA] at h
  | cons a as ih =>
    rw [findIdxA] at h
    split at h
    case isTrue hpa =>
      simp only [Option.some.injEq] at h
      subst h
      exact ⟨Nat.succ_pos _, ⟨a, by simp, hpa⟩, fun j hj => absurd hj (Nat.not_lt_zero j)⟩
    case isFalse hpa =>
      cases hf : findIdxA p as with
      | none => rw [hf] at h; simp at h
      | some i' =>
        rw [hf] at h
        simp only [Option.map_some', Option.some.injEq] at h
        subst h
        obtain ⟨hlt, ⟨x, hx, hpx⟩, hbefore⟩ := ih hf
        refine ⟨by simpa using hlt, ⟨x, by simpa using hx, hpx⟩, ?_⟩
        intro j hj y hy
        cases j with
        | zero =>
          simp only [List.getElem?_cons_zero, Option.some.injEq] at hy
          subst hy
          simpa using hpa
        | succ j' =>
          simp only [List.getElem?_cons_succ] at hy
          exact hbefore j' (by omega) y hy

theorem findIdxA_append_left {α : Type} {p : α → Bool} {l t : List α} {i : Nat}
    (h : findIdxA p l = some i) : findIdxA p (l ++ t) = some i := by
  induction l generalizing i with
  | nil => simp [findIdxA] at h
  | cons a as ih =>
    rw [findIdxA] at h
    rw [List.cons_append, findIdxA]
    split at h
    case isTrue hpa => rw [if_pos hpa]; exact h
    case isFalse hpa =>
      rw [if_neg hpa]
      cases hf : findIdxA p as with
      | none => rw [hf] at h; simp at h
      | some i' => rw [hf] at h; rw [ih hf]; exact h

theorem findIdxA_append_none {α : Type} {p : α → Bool} {l t : List α}
    (h : findIdxA p l = none) :
    findIdxA p (l ++ t) = (findIdxA p t).map (· + l.length) := by
  induction l with
  | nil => simp [findIdxA]
  | cons a as ih =>
    rw [findIdxA] at h
    rw [List.cons_append, findIdxA]
    split at h
    case isTrue hpa => simp at h
    case isFalse hpa =>
      rw [if_neg hpa]
      cases hf : findIdxA p as with
      | none =>
        rw [ih hf]
        cases findIdxA p t
        · simp
        · simp; omega
      | some i' => rw [hf] at h; simp at h

/-! ### Properties of the palette operations -/

theorem addPal_found {pal : List Block} {b : Block} {i : Nat}
    (h : findIdxA (fun x => blockEq b x) pal = some i) :
    addBlockToPalette pal (some b) = ((i : Int), pal) := by
  rw [addBlockToPalette, h]

theorem addPal_notfound {pal : List Block} {b : Block}
    (h : findIdxA (fun x => blockEq b x) pal = none) :
    addBlockToPalette pal (some b) = ((pal.length : Int), pal ++ [b]) := by
  rw [addBlockToPalette, h]

theorem addPal_extends (pal : List Block) (ob : Option Block) :
    ∃ t, (addBlockToPalette pal ob).2 = pal ++ t := by
  cases ob with
  | none => exact ⟨[], by simp [addBlockToPalette]⟩
  | some b =>
    cases hf : findIdxA (fun x => blockEq b x) pal with
    | some i => exact ⟨[], by rw [addPal_found hf]; simp⟩
    | none => exact ⟨[b], by rw [addPal_notfound hf]⟩

/-- Interning a (self-equal) block returns a valid index of an
`==`-equal palette entry. -/
theorem addPal_some_spec {pal : List Block} {b : Block} (hb : blockEq b b = true) :
    ∃ j : Nat, (addBlockToPalette pal (some b)).1 = (j : Int) ∧
      j < (addBlockToPalette pal (some b)).2.length ∧
      ∃ e, (addBlockToPalette pal (some b)).2[j]? = some e ∧ blockEq b e = true := by
  cases hf : findIdxA (fun x => blockEq b x) pal with
  | some i =>
    obtain ⟨hlt, ⟨x, hx, hpx⟩, -⟩ := findIdxA_some_spec hf
    rw [addPal_found hf]
    exact ⟨i, rfl, hlt, x, hx, hpx⟩
  | none =>
    rw [addPal_notfound hf]
    refine ⟨pal.length, rfl, by simp, b, ?_, hb⟩
    simp

/-- Interning a list of (self-equal) blocks yields one index per
block; the palette only grows at the end; and each produced index is a
valid index of an `==`-equal entry in the final palette. -/
theorem internAll_spec (bs : List Block) : ∀ pal : List Block,
    (bs.all fun b => blockEq b b) = true →
    (internAll pal bs).1.length = bs.length ∧
      (∃ t, (internAll pal bs).2 = pal ++ t) ∧
      ∀ (k : Nat) (b : Block), bs[k]? = some b →
        ∃ j : Nat, (internAll pal bs).1[k]? = some ((j : Int)) ∧
          ∃ e, (internAll pal bs).2[j]? = some e ∧ blockEq b e = true := by
  induction bs with
  | nil =>
    intro pal _
    refine ⟨rfl, ⟨[], by simp [internAll]⟩, ?_⟩
    intro k b hb
    simp at hb
  | cons b rest ih =>
    intro pal hwf
    rw [List.all_cons, Bool.and_eq_true] at hwf
    obtain ⟨j0, hj0, hj0lt, e0, he0, hbe0⟩ := @addPal_some_spec pal b hwf.1
    obtain ⟨hlen, ⟨t, ht⟩, hmap⟩ := ih (addBlockToPalette pal (some b)).2 hwf.2
    have hfinal1 : (internAll pal (b :: rest)).1
        = (addBlockToPalette pal (some b)).1 :: (internAll (addBlockToPalette pal (some b)).2 rest).1 := rfl
    have hfinal2 : (internAll pal (b :: rest)).2
        = (internAll (addBlockToPalette pal (some b)).2 rest).2 := rfl
    refine ⟨by rw [hfinal1]; simp [hlen], ?_, ?_⟩
    · obtain ⟨t0, ht0⟩ := addPal_extends pal (some b)
      rw [hfinal2, ht, ht0]
      exact ⟨t0 ++ t, by simp⟩
    · intro k bk hbk
      cases k with
      | zero =>
        simp only [List.getElem?_cons_zero, Option.some.injEq] at hbk
        subst hbk
        refine ⟨j0, by rw [hfinal1, hj0]; simp, e0, ?_, hbe0⟩
        rw [hfinal2, ht]
        rw [List.getElem?_append_left hj0lt]
        exact he0
      | succ k' =>
        simp only [List.getElem?_cons_succ] at hbk
        obtain ⟨j, hj, e, he, hbe⟩ := hmap k' bk hbk
        refine ⟨j, by rw [hfinal1]; simpa using hj, e, by rw [hfinal2]; exact he, hbe⟩

/-! ### Coordinate-indexing lemmas -/

theorem npIndex_natCast (n x : Nat) :
    npIndex n (x : Int) = if x < n then some x else none := by
  rw [npIndex]
  have h0 : ¬((x : Int) < 0) := by omega
  simp only [h0, if_false]
  by_cases h : x < n
  · rw [if_pos (by omega), if_pos h]
    simp
  · rw [if_neg (by omega), if_neg h]

theorem npIndex_neg_wrap {n : Nat} {i : Int} (hneg : i < 0) (hge : -(n : Int) ≤ i) :
    npIndex n i = some ((n : Int) + i).toNat := by
  rw [npIndex]
  simp only [hneg, if_true]
  rw [if_pos (by omega)]

theorem npIndex_oob {n : Nat} {i : Int} (h : i < -(n : Int) ∨ (n : Int) ≤ i) :
    npIndex n i = none := by
  rw [npIndex]
  rcases h with h | h
  · have : (i < 0) = True := by simp; omega
    simp only [this, if_true]
    rw [if_neg (by omega)]
  · have h0 : ¬(i < 0) := by omega
    simp only [h0, if_false]
    rw [if_neg (by omega)]

theorem wf_spec {s : Structure} (h : s.wf = true) {x y z : Nat}
    (hx : x < s.size.1) (hy : y < s.size.2.1) (hz : z < s.size.2.2) :
    -1 ≤ s.grid x y z ∧ s.grid x y z < (s.palette.length : Int) := by
  rw [Structure.wf, List.all_eq_true] at h
  have h1 := h x (List.mem_range.mpr hx)
  rw [List.all_eq_true] at h1
  have h2 := h1 y (List.mem_range.mpr hy)
  rw [List.all_eq_true] at h2
  have h3 := h2 z (List.mem_range.mpr hz)
  rw [Bool.and_eq_true, decide_eq_true_eq, decide_eq_true_eq] at h3
  exact h3

/-- `get_block` at an in-bounds non-negative coordinate. -/
theorem get_block_nat {s : Structure} {x y z : Nat}
    (hx : x < s.size.1) (hy : y < s.size.2.1) (hz : z < s.size.2.2) :
    s.get_block ((x : Int), (y : Int), (z : Int)) =
      if 0 ≤ s.grid x y z then s.palette[(s.grid x y z).toNat]? else some voidBlock := by
  rw [Structure.get_block]
  simp only [npIndex_natCast, if_pos hx, if_pos hy, if_pos hz]

/-! ### Flattening (numpy C order) -/

theorem buildGrid_length (sz : Nat × Nat × Nat) (f : Nat → Nat → Nat → Int) :
    (buildGrid sz f).length = volume sz := by
  simp [buildGrid]

theorem flatIdx_lt {sz : Nat × Nat × Nat} {x y z : Nat}
    (hx : x < sz.1) (hy : y < sz.2.1) (hz : z < sz.2.2) :
    flatIdx sz x y z < volume sz := by
  rw [flatIdx, volume]
  have h1 : (x * sz.2.1 + y) * sz.2.2 + z < (x * sz.2.1 + y + 1) * sz.2.2 := by
    have : (x * sz.2.1 + y + 1) * sz.2.2 = (x * sz.2.1 + y) * sz.2.2 + sz.2.2 := by ring
    omega
  have h2 : (x * sz.2.1 + y + 1) * sz.2.2 ≤ (sz.1 * sz.2.1) * sz.2.2 := by
    refine Nat.mul_le_mul_right _ ?_
    have : (x + 1) * sz.2.1 = x * sz.2.1 + sz.2.1 := by ring
    have hxx : (x + 1) * sz.2.1 ≤ sz.1 * sz.2.1 := Nat.mul_le_mul_right _ hx
    omega
  omega

theorem flatIdx_decode {sz : Nat × Nat × Nat} {x y z : Nat}
    (hx : x < sz.1) (hy : y < sz.2.1) (hz : z < sz.2.2) :
    flatIdx sz x y z / (sz.2.1 * sz.2.2) = x
      ∧ flatIdx sz x y z / sz.2.2 % sz.2.1 = y
      ∧ flatIdx sz x y z % sz.2.2 = z := by
  have hZ : 0 < sz.2.2 := by omega
  have hY : 0 < sz.2.1 := by omega
  have e3 : flatIdx sz x y z % sz.2.2 = z := by
    rw [flatIdx, Nat.mul_comm (x * sz.2.1 + y) sz.2.2, Nat.mul_add_mod]
    exact Nat.mod_eq_of_lt hz
  have ediv : flatIdx sz x y z / sz.2.2 = x * sz.2.1 + y := by
    rw [flatIdx, Nat.mul_comm (x * sz.2.1 + y) sz.2.2, Nat.mul_add_div hZ]
    rw [Nat.div_eq_of_lt hz]
    omega
  have e2 : flatIdx sz x y z / sz.2.2 % sz.2.1 = y := by
    rw [ediv, Nat.mul_comm x sz.2.1, Nat.mul_add_mod]
    exact Nat.mod_eq_of_lt hy
  have e1 : flatIdx sz x y z / (sz.2.1 * sz.2.2) = x := by
    have hexp : flatIdx sz x y z = sz.2.1 * sz.2.2 * x + (y * sz.2.2 + z) := by
      rw [flatIdx]; ring
    have hlt : y * sz.2.2 + z < sz.2.1 * sz.2.2 := by
      have : (y + 1) * sz.2.2 ≤ sz.2.1 * sz.2.2 := Nat.mul_le_mul_right _ hy
      have : (y + 1) * sz.2.2 = y * sz.2.2 + sz.2.2 := by ring
      have := Nat.mul_le_mul_right sz.2.2 (show y + 1 ≤ sz.2.1 by omega)
      omega
    rw [hexp, Nat.mul_add_div (Nat.mul_pos hY hZ), Nat.div_eq_of_lt hlt]
    omega
  exact ⟨e1, e2, e3⟩

theorem buildGrid_get {sz : Nat × Nat × Nat} {f : Nat → Nat → Nat → Int} {x y z : Nat}
    (hx : x < sz.1) (hy : y < sz.2.1) (hz : z < sz.2.2) :
    (buildGrid sz f)[flatIdx sz x y z]? = some (f x y z) := by
  obtain ⟨e1, e2, e3⟩ := flatIdx_decode hx hy hz
  rw [buildGrid, List.getElem?_map, List.getElem?_range (flatIdx_lt hx hy hz)]
  simp only [Option.map_some']
  rw [e1, e2, e3]

/-- Every flattened entry comes from an in-bounds cell. -/
theorem buildGrid_mem {sz : Nat × Nat × Nat} {f : Nat → Nat → Nat → Int} {v : Int}
    (h : v ∈ buildGrid sz f) :
    ∃ x y z, x < sz.1 ∧ y < sz.2.1 ∧ z < sz.2.2 ∧ v = f x y z := by
  rw [buildGrid, List.mem_map] at h
  obtain ⟨n, hn, hv⟩ := h
  rw [List.mem_range] at hn
  have hvol : 0 < volume sz := Nat.pos_of_ne_zero (by intro h0; rw [h0] at hn; omega)
  have hZ : 0 < sz.2.2 := by
    rcases Nat.eq_zero_or_pos sz.2.2 with h0 | h0
    · rw [volume, h0, Nat.mul_zero] at hvol; omega
    · exact h0
  have hY : 0 < sz.2.1 := by
    rcases Nat.eq_zero_or_pos sz.2.1 with h0 | h0
    · rw [volume, h0, Nat.mul_zero, Nat.zero_mul] at hvol; omega
    · exact h0
  refine ⟨n / (sz.2.1 * sz.2.2), n / sz.2.2 % sz.2.1, n % sz.2.2, ?_, ?_, ?_, hv.symm⟩
  · rw [Nat.div_lt_iff_lt_mul (Nat.mul_pos hY hZ)]
    calc n < volume sz := hn
    _ = sz.1 * (sz.2.1 * sz.2.2) := by rw [volume]; ring
  · exact Nat.mod_lt _ hY
  · exact Nat.mod_lt _ hZ

/-! ### Python list indexing lemmas -/

theorem pyListGet_nonneg {α : Type} {l : List α} {i : Int} (h : 0 ≤ i) :
    pyListGet l i = l[i.toNat]? := by
  rw [pyListGet, if_neg (by omega)]

theorem pyListGet_neg_one {α : Type} {l : List α} (h : 0 < l.length) :
    pyListGet l (-1) = l[l.length - 1]? := by
  rw [pyListGet, if_pos (by omega), if_pos (by omega)]
  congr 1
  omega

theorem pyListGet_mem {α : Type} {l : List α} {i : Int} {b : α}
    (h : pyListGet l i = some b) : b ∈ l := by
  rw [pyListGet] at h
  by_cases hi : i < 0
  · rw [if_pos hi] at h
    by_cases h0 : (0 : Int) ≤ (l.length : Int) + i
    · rw [if_pos h0] at h
      exact List.getElem?_mem h
    · rw [if_neg h0] at h
      cases h
  · rw [if_neg hi] at h
    exact List.getElem?_mem h

/-! ### Secondary (waterlog) layer lemmas -/

theorem waterIdx_extends (pal : List Block) : ∃ t, (waterIdx pal).2 = pal ++ t := by
  rw [waterIdx]
  cases hf : findIdxA (fun bl => blockEq bl waterBlock) pal with
  | some i => exact ⟨[], by simp⟩
  | none => exact addPal_extends pal (some waterBlock)

/-- `_water_index` returns the first index of a water-equal entry in
the (possibly extended) palette. -/
theorem waterIdx_spec (pal : List Block) :
    ∃ w : Nat, (waterIdx pal).1 = (w : Int)
      ∧ findIdxA (fun bl => blockEq bl waterBlock) (waterIdx pal).2 = some w := by
  rw [waterIdx]
  cases hf : findIdxA (fun bl => blockEq bl waterBlock) pal with
  | some i => exact ⟨i, rfl, hf⟩
  | none =>
    have hpred : (fun x => blockEq waterBlock x) = fun bl => blockEq bl waterBlock :=
      funext fun x => blockEq_comm waterBlock x
    have hf' : findIdxA (fun x => blockEq waterBlock x) pal = none := by rw [hpred]; exact hf
    rw [addPal_notfound hf']
    refine ⟨pal.length, rfl, ?_⟩
    rw [findIdxA_append_none hf]
    have hw : blockEq waterBlock waterBlock = true := by decide
    simp [findIdxA, hw]

theorem secStep_eq_none {pal : List Block} {i : Int} (hg : pyListGet pal i = none) :
    secStep pal i = none := by
  rw [secStep, hg]

theorem secStep_eq_some {pal : List Block} {i : Int} {b : Block}
    (hg : pyListGet pal i = some b) :
    secStep pal i = if b.waterlogged = true then some (waterIdx pal)
      else some ((-1 : Int), pal) := by
  rw [secStep, hg]

theorem secStep_extends {pal : List Block} {i : Int} {r : Int × List Block}
    (h : secStep pal i = some r) : ∃ t, r.2 = pal ++ t := by
  cases hg : pyListGet pal i with
  | none => rw [secStep_eq_none hg] at h; cases h
  | some b =>
    rw [secStep_eq_some hg] at h
    by_cases hw : b.waterlogged = true
    · rw [if_pos hw] at h
      obtain ⟨t, ht⟩ := waterIdx_extends pal
      simp only [Option.some.injEq] at h
      exact ⟨t, by rw [← h]; exact ht⟩
    · rw [if_neg hw] at h
      simp only [Option.some.injEq] at h
      exact ⟨[], by rw [← h]; simp⟩

theorem secList_cons_some {pal : List Block} {j : Int} {rest : List Int}
    {sr : Int × List Block} {q : List Int × List Block}
    (hs : secStep pal j = some sr) (hq : secondaryList sr.2 rest = some q) :
    secondaryList pal (j :: rest) = some (sr.1 :: q.1, q.2) := by
  rw [secondaryList, hs]
  show (match secondaryList sr.2 rest with
    | none => none
    | some q => some (sr.1 :: q.1, q.2)) = some (sr.1 :: q.1, q.2)
  rw [hq]

theorem secList_cons_inv {pal : List Block} {j : Int} {rest : List Int}
    {r : List Int × List Block} (h : secondaryList pal (j :: rest) = some r) :
    ∃ sr q, secStep pal j = some sr ∧ secondaryList sr.2 rest = some q
      ∧ r = (sr.1 :: q.1, q.2) := by
  rw [secondaryList] at h
  cases hs : secStep pal j with
  | none => rw [hs] at h; exact Option.noConfusion h
  | some sr =>
    rw [hs] at h
    have h1 : (match secondaryList sr.2 rest with
        | none => none
        | some q => some (sr.1 :: q.1, q.2)) = some r := h
    cases hq : secondaryList sr.2 rest with
    | none => rw [hq] at h1; exact Option.noConfusion h1
    | some q =>
      rw [hq] at h1
      have h2 : some (sr.1 :: q.1, q.2) = some r := h1
      simp only [Option.some.injEq] at h2
      exact ⟨sr, q, rfl, hq, h2.symm⟩

theorem secList_extends {flat : List Int} : ∀ {pal : List Block} {r : List Int × List Block},
    secondaryList pal flat = some r → ∃ t, r.2 = pal ++ t := by
  induction flat with
  | nil =>
    intro pal r h
    rw [secondaryList] at h
    simp only [Option.some.injEq] at h
    exact ⟨[], by rw [← h]; simp⟩
  | cons j rest ih =>
    intro pal r h
    obtain ⟨sr, q, hs, hq, hr⟩ := secList_cons_inv h
    obtain ⟨t1, ht1⟩ := secStep_extends hs
    obtain ⟨t2, ht2⟩ := ih hq
    refine ⟨t1 ++ t2, ?_⟩
    rw [hr]
    simp only [ht2, ht1, List.append_assoc]

theorem secList_length {flat : List Int} : ∀ {pal : List Block} {r : List Int × List Block},
    secondaryList pal flat = some r → r.1.length = flat.length := by
  induction flat with
  | nil =>
    intro pal r h
    rw [secondaryList] at h
    simp only [Option.some.injEq] at h
    rw [← h]
  | cons j rest ih =>
    intro pal r h
    obtain ⟨sr, q, hs, hq, hr⟩ := secList_cons_inv h
    rw [hr]
    simp [ih hq]

/-- Characterization of one entry of the secondary layer for a cell
holding a valid palette index: `-1` for a non-waterlogged entry, the
stable first water index of the final palette for a waterlogged one. -/
theorem secList_get {flat : List Int} :
    ∀ {pal : List Block} {vs : List Int} {palF : List Block} {k : Nat} {i : Int},
    secondaryList pal flat = some (vs, palF) →
    flat[k]? = some i → 0 ≤ i → i.toNat < pal.length →
    ∃ b, pal[i.toNat]? = some b ∧
      (b.waterlogged = false → vs[k]? = some (-1)) ∧
      (b.waterlogged = true → ∃ w : Nat, vs[k]? = some ((w : Int)) ∧
        findIdxA (fun bl => blockEq bl waterBlock) palF = some w) := by
  induction flat with
  | nil =>
    intro pal vs palF k i h hk hi hlen
    simp at hk
  | cons j rest ih =>
    intro pal vs palF k i h hk hi hlen
    obtain ⟨sr, q, hs, hq, hr⟩ := secList_cons_inv h
    obtain ⟨hvs, hpalF⟩ : vs = sr.1 :: q.1 ∧ palF = q.2 := by
      rw [Prod.ext_iff] at hr
      exact hr
    subst hvs
    subst hpalF
    cases k with
    | zero =>
      simp only [List.getElem?_cons_zero, Option.some.injEq] at hk
      subst hk
      have hsome : pal[j.toNat]? = some (pal.get ⟨j.toNat, hlen⟩) :=
        List.getElem?_eq_getElem hlen
      have hget : pyListGet pal j = some (pal.get ⟨j.toNat, hlen⟩) := by
        rw [pyListGet_nonneg hi]
        exact hsome
      refine ⟨pal.get ⟨j.toNat, hlen⟩, hsome, ?_, ?_⟩
      · intro hwl
        have hstep : secStep pal j = some ((-1 : Int), pal) := by
          rw [secStep_eq_some hget, hwl]
          simp
        rw [hstep] at hs
        simp only [Option.some.injEq] at hs
        rw [← hs]
        simp
      · intro hwl
        have hstep : secStep pal j = some (waterIdx pal) := by
          rw [secStep_eq_some hget, hwl]
          simp
        rw [hstep] at hs
        simp only [Option.some.injEq] at hs
        obtain ⟨w, hw1, hw2⟩ := waterIdx_spec pal
        obtain ⟨t, ht⟩ := secList_extends hq
        refine ⟨w, ?_, ?_⟩
        · rw [← hs]
          simp [hw1]
        · rw [ht, ← hs]
          exact findIdxA_append_left hw2
    | succ k' =>
      simp only [List.getElem?_cons_succ] at hk
      obtain ⟨t1, ht1⟩ := secStep_extends hs
      have hlen' : i.toNat < sr.2.length := by
        rw [ht1]
        simp only [List.length_append]
        omega
      obtain ⟨b, hb, hfalse, htrue⟩ := ih hq hk hi hlen'
      have hb' : pal[i.toNat]? = some b := by
        rw [ht1] at hb
        rw [← List.getElem?_append_left hlen]
        exact hb
      exact ⟨b, hb', fun hwl => by simpa using hfalse hwl,
        fun hwl => by
          obtain ⟨w, hw1, hw2⟩ := htrue hwl
          exact ⟨w, by simpa using hw1, hw2⟩⟩

/-- Serializing the secondary layer succeeds whenever the palette is
non-empty and every cell value is `-1` or a valid palette index. -/
theorem secList_total {flat : List Int} : ∀ {pal : List Block}, 0 < pal.length →
    (∀ i ∈ flat, -1 ≤ i ∧ i < (pal.length : Int)) →
    ∃ r, secondaryList pal flat = some r := by
  induction flat with
  | nil => exact fun _ _ => ⟨_, rfl⟩
  | cons j rest ih =>
    intro pal hpal hb
    have hj := hb j (List.mem_cons_self _ _)
    have hget : ∃ b, pyListGet pal j = some b := by
      by_cases hneg : j < 0
      · have hj1 : j = -1 := by omega
        subst hj1
        rw [pyListGet_neg_one hpal]
        exact ⟨_, List.getElem?_eq_getElem (by omega)⟩
      · rw [pyListGet_nonneg (by omega)]
        exact ⟨_, List.getElem?_eq_getElem (by omega)⟩
    obtain ⟨b, hbstep⟩ := hget
    have hstep := secStep_eq_some hbstep
    by_cases hwl : b.waterlogged = true
    · rw [if_pos hwl] at hstep
      obtain ⟨t, ht⟩ := waterIdx_extends pal
      have hlen2 : pal.length ≤ (waterIdx pal).2.length := by
        rw [ht]; simp
      obtain ⟨r, hrest⟩ := @ih (waterIdx pal).2 (by omega)
        (fun i hi => by
          have := hb i (List.mem_cons_of_mem _ hi)
          constructor
          · exact this.1
          · have : i < (pal.length : Int) := this.2
            omega)
      exact ⟨_, secList_cons_some hstep hrest⟩
    · rw [if_neg hwl] at hstep
      obtain ⟨r, hrest⟩ := @ih pal hpal
        (fun i hi => hb i (List.mem_cons_of_mem _ hi))
      exact ⟨_, secList_cons_some hstep hrest⟩

/-- When no palette entry is waterlogged the palette is never touched
and every secondary entry is `-1`. -/
theorem secList_notwl {flat : List Int} :
    ∀ {pal : List Block} {r : List Int × List Block},
    (∀ b ∈ pal, b.waterlogged = false) →
    secondaryList pal flat = some r →
    r.2 = pal ∧ ∀ (k : Nat) (v : Int), r.1[k]? = some v → v = -1 := by
  induction flat with
  | nil =>
    intro pal r hwl h
    rw [secondaryList] at h
    simp only [Option.some.injEq] at h
    rw [← h]
    exact ⟨rfl, fun k v hv => by simp at hv⟩
  | cons j rest ih =>
    intro pal r hwl h
    obtain ⟨sr, q, hs, hq, hr⟩ := secList_cons_inv h
    cases hg : pyListGet pal j with
    | none => rw [secStep_eq_none hg] at hs; exact Option.noConfusion hs
    | some b =>
      have hbwl : b.waterlogged = false := hwl b (pyListGet_mem hg)
      have hstep := secStep_eq_some hg
      rw [hbwl] at hstep
      simp only [Bool.false_eq_true, if_false] at hstep
      rw [hstep] at hs
      simp only [Option.some.injEq] at hs
      rw [← hs] at hq
      obtain ⟨hpalF, hvals⟩ := ih hwl hq
      rw [hr]
      refine ⟨hpalF, ?_⟩
      intro k v hv
      rw [← hs] at hv
      cases k with
      | zero =>
        simp only [List.getElem?_cons_zero, Option.some.injEq] at hv
        omega
      | succ k' =>
        simp only [List.getElem?_cons_succ] at hv
        exact hvals k' v hv

/-! ### Further coordinate lemmas -/

theorem npIndex_wrap {n : Nat} {i : Int} (h1 : -(n : Int) ≤ i) (h2 : i < (n : Int)) :
    npIndex n i = npIndex n (if i < 0 then i + (n : Int) else i) := by
  by_cases hneg : i < 0
  · rw [if_pos hneg, npIndex_neg_wrap hneg h1]
    have hnn : ¬(i + (n : Int) < 0) := by omega
    simp only [npIndex, hnn, if_false]
    rw [if_pos ⟨by omega, by omega⟩]
    congr 1
    omega
  · rw [if_neg hneg]

theorem pyListGet_nil {α : Type} (i : Int) : pyListGet ([] : List α) i = none := by
  rw [pyListGet]
  by_cases hi : i < 0
  · rw [if_pos hi, if_neg (by simp; omega)]
  · rw [if_neg hi]
    simp

/-- Inversion of `as_nbt`. -/
theorem as_nbt_inv {s : Structure} {d : Doc} (h : s.as_nbt = some d) :
    ∃ r, secondaryList s.palette (buildGrid s.size s.grid) = some r
      ∧ d = { size := some s.size, primary := buildGrid s.size s.grid, secondary := r.1,
              blockPalette := r.2.map (fun b => (b.identifier, b.states)),
              entities := s.entities } := by
  simp only [Structure.as_nbt] at h
  cases hr : secondaryList s.palette (buildGrid s.size s.grid) with
  | none => rw [hr] at h; exact Option.noConfusion h
  | some r =>
    rw [hr] at h
    simp only [Option.some.injEq] at h
    exact ⟨r, rfl, h.symm⟩

/-! ### Helpers for `get_block`, `set_block` and the palette invariant -/

theorem get_block_resolved {s : Structure} {c : Int × Int × Int} {x y z : Nat}
    (h1 : npIndex s.size.1 c.1 = some x) (h2 : npIndex s.size.2.1 c.2.1 = some y)
    (h3 : npIndex s.size.2.2 c.2.2 = some z) :
    s.get_block c = if 0 ≤ s.grid x y z then s.palette[(s.grid x y z).toNat]?
      else some voidBlock := by
  rw [Structure.get_block, h1, h2, h3]

theorem get_block_none {s : Structure} {c : Int × Int × Int}
    (h : npIndex s.size.1 c.1 = none ∨ npIndex s.size.2.1 c.2.1 = none
      ∨ npIndex s.size.2.2 c.2.2 = none) :
    s.get_block c = none := by
  rw [Structure.get_block]
  cases h1 : npIndex s.size.1 c.1 with
  | none => rfl
  | some x =>
    cases h2 : npIndex s.size.2.1 c.2.1 with
    | none => rfl
    | some y =>
      cases h3 : npIndex s.size.2.2 c.2.2 with
      | none => rfl
      | some z =>
        rcases h with h | h | h
        · rw [h1] at h; exact Option.noConfusion h
        · rw [h2] at h; exact Option.noConfusion h
        · rw [h3] at h; exact Option.noConfusion h

theorem set_block_inv {s : Structure} {c : Int × Int × Int} {ob : Option Block}
    {s' : Structure} (h : s.set_block c ob = some s') :
    ∃ x y z, npIndex s.size.1 c.1 = some x ∧ npIndex s.size.2.1 c.2.1 = some y
      ∧ npIndex s.size.2.2 c.2.2 = some z
      ∧ s' = { s with
          palette := (addBlockToPalette s.palette ob).2,
          grid := fun x' y' z' => if x' = x ∧ y' = y ∧ z' = z
            then (addBlockToPalette s.palette ob).1 else s.grid x' y' z' } := by
  simp only [Structure.set_block] at h
  cases h1 : npIndex s.size.1 c.1 with
  | none => rw [h1] at h; exact Option.noConfusion h
  | some x =>
    rw [h1] at h
    cases h2 : npIndex s.size.2.1 c.2.1 with
    | none => rw [h2] at h; exact Option.noConfusion h
    | some y =>
      rw [h2] at h
      cases h3 : npIndex s.size.2.2 c.2.2 with
      | none => rw [h3] at h; exact Option.noConfusion h
      | some z =>
        rw [h3] at h
        simp only [Option.some.injEq] at h
        exact ⟨x, y, z, rfl, rfl, rfl, h.symm⟩

theorem addPal_length (pal : List Block) (ob : Option Block) :
    (addBlockToPalette pal ob).2.length ≤ pal.length + 1 := by
  obtain ⟨t, ht⟩ := addPal_extends pal ob
  cases ob with
  | none => simp [addBlockToPalette]
  | some b =>
    cases hf : findIdxA (fun x => blockEq b x) pal with
    | some i => rw [addPal_found hf]; simp
    | none => rw [addPal_notfound hf]; simp

/-- Re-interning an `==`-equal block right after an interning returns
the same index and leaves the palette unchanged. -/
theorem addPal_repeat {pal : List Block} {b b' : Block} (hb : blockEq b b = true)
    (hbb' : blockEq b b' = true) :
    addBlockToPalette ((addBlockToPalette pal (some b)).2) (some b')
      = ((addBlockToPalette pal (some b)).1, (addBlockToPalette pal (some b)).2) := by
  have hpred : (fun x => blockEq b' x) = fun x => blockEq b x :=
    blockEq_pred_ext (blockEq_symm hbb')
  cases hf : findIdxA (fun x => blockEq b x) pal with
  | some i =>
    rw [addPal_found hf]
    exact addPal_found (by rw [hpred]; exact hf)
  | none =>
    rw [addPal_notfound hf]
    have hfind : findIdxA (fun x => blockEq b' x) (pal ++ [b]) = some pal.length := by
      rw [hpred, findIdxA_append_none hf]
      simp [findIdxA, hb]
    rw [addPal_found hfind]

theorem palNoDup_append {pal : List Block} {b : Block} (hnd : palNoDup pal = true)
    (hnew : ∀ x ∈ pal, blockEq b x = false) : palNoDup (pal ++ [b]) = true := by
  induction pal with
  | nil => simp [palNoDup, blockEq]
  | cons a rest ih =>
    rw [palNoDup, Bool.and_eq_true] at hnd
    rw [List.cons_append, palNoDup, Bool.and_eq_true]
    constructor
    · rw [List.all_eq_true]
      intro x hx
      rw [List.mem_append] at hx
      rcases hx with hx | hx
      · rw [List.all_eq_true] at hnd
        exact hnd.1 x hx
      · rw [List.mem_singleton] at hx
        subst hx
        have := hnew a (List.mem_cons_self _ _)
        rw [blockEq_comm, this]
        rfl
    · exact ih hnd.2 fun x hx => hnew x (List.mem_cons_of_mem _ hx)

theorem palNoDup_pairwise {pal : List Block} (h : palNoDup pal = true) :
    ∀ (i j : Nat) (e e' : Block), i < j → pal[i]? = some e → pal[j]? = some e' →
      blockEq e e' = false := by
  induction pal with
  | nil => intro i j e e' hij he he'; simp at he
  | cons a rest ih =>
    rw [palNoDup, Bool.and_eq_true] at h
    intro i j e e' hij he he'
    cases i with
    | zero =>
      simp only [List.getElem?_cons_zero, Option.some.injEq] at he
      subst he
      cases j with
      | zero => omega
      | succ j' =>
        simp only [List.getElem?_cons_succ] at he'
        rw [List.all_eq_true] at h
        have := h.1 e' (List.getElem?_mem he')
        simp only [Bool.not_eq_true'] at this
        exact this
    | succ i' =>
      cases j with
      | zero => omega
      | succ j' =>
        simp only [List.getElem?_cons_succ] at he he'
        exact ih h.2 i' j' e e' (by omega) he he'

end Mcstructure

namespace Mcstructure

/-! ## Claim theorems -/

/-- C3 counterexample: constructing a structure of size `(65, 0, 0)` does
NOT fail — `Structure.__init__` performs no size validation, so the
oversized structure is produced (with exactly the requested size), while
the standalone predicate `has_suitable_size` rejects that size. -/
theorem c3_oversized_counterexample :
    (Structure.init (65, 0, 0) (some airBlock)).size = (65, 0, 0)
      ∧ has_suitable_size (65, 0, 0) = false := by
  constructor
  · rfl
  · decide

/-- C3 (amended): the constructor never validates the size and always
succeeds, returning a structure of exactly the requested size; only the
standalone predicate `has_suitable_size` checks the fixed maximum bound
`STRUCTURE_MAX_SIZE = (64, 384, 64)` (true at the bound itself). -/
theorem c3_size_validation_amended (sz : Nat × Nat × Nat) (fill : Option Block) :
    (Structure.init sz fill).size = sz
      ∧ (has_suitable_size sz = true ↔
          sz.1 ≤ STRUCTURE_MAX_SIZE.1 ∧ sz.2.1 ≤ STRUCTURE_MAX_SIZE.2.1
            ∧ sz.2.2 ≤ STRUCTURE_MAX_SIZE.2.2)
      ∧ has_suitable_size (64, 384, 64) = true := by
  refine ⟨?_, ?_, by decide⟩
  · cases fill <;> rfl
  · rw [has_suitable_size]
    simp only [Bool.and_eq_true, decide_eq_true_eq]
    exact and_assoc

/-- C2: the box-fill `set_blocks((4,1,4), (1,1,1), dirt)` on a 5×2×5
structure does NOT fill the reversed box — the numpy slice is empty
while the right-hand side has the absolute-difference shape, so the
assignment raises (modelled as `none`); the reversed argument order
fills the box as expected. -/
theorem c2_set_blocks_decreasing_bug :
    ((Structure.init (5, 2, 5) (some airBlock)).set_blocks (4, 1, 4) (1, 1, 1)
        (some dirtBlock)).isSome = false
      ∧ ((Structure.init (5, 2, 5) (some airBlock)).set_blocks (1, 1, 1) (4, 1, 4)
          (some dirtBlock)).bind (fun s => s.get_block (2, 1, 2)) = some dirtBlock
      ∧ ((Structure.init (5, 2, 5) (some airBlock)).set_blocks (1, 1, 1) (4, 1, 4)
          (some dirtBlock)).bind (fun s => s.get_block (0, 0, 0)) = some airBlock := by
  refine ⟨by decide, by decide, by decide⟩

/-- C4 counterexample: the out-of-grid coordinate `(-1, 0, 0)` does NOT
raise `IndexError`; numpy wraps the negative index and `get_block`
returns the block at `(1, 0, 0)`. -/
theorem c4_negative_wrap_counterexample :
    (Structure.init (2, 1, 1) (some airBlock)).get_block (-1, 0, 0) = some airBlock := by
  decide

/-- C4 (amended): `get_block` fails with `IndexError` exactly for
coordinates with a component outside `[-n, n)` for that axis's extent
`n`; negative components in `[-n, 0)` silently wrap to `n + c`
(numpy semantics) instead of failing; and an in-grid cell holding `-1`
yields the structure-void sentinel rather than failing. -/
theorem c4_bounds_amended :
    (∀ (s : Structure) (c : Int × Int × Int),
      (c.1 < -(s.size.1 : Int) ∨ (s.size.1 : Int) ≤ c.1
        ∨ c.2.1 < -(s.size.2.1 : Int) ∨ (s.size.2.1 : Int) ≤ c.2.1
        ∨ c.2.2 < -(s.size.2.2 : Int) ∨ (s.size.2.2 : Int) ≤ c.2.2) →
      s.get_block c = none)
    ∧ (∀ (s : Structure) (c : Int × Int × Int),
        -(s.size.1 : Int) ≤ c.1 → c.1 < (s.size.1 : Int) →
        -(s.size.2.1 : Int) ≤ c.2.1 → c.2.1 < (s.size.2.1 : Int) →
        -(s.size.2.2 : Int) ≤ c.2.2 → c.2.2 < (s.size.2.2 : Int) →
        s.get_block c = s.get_block
          (if c.1 < 0 then c.1 + (s.size.1 : Int) else c.1,
           if c.2.1 < 0 then c.2.1 + (s.size.2.1 : Int) else c.2.1,
           if c.2.2 < 0 then c.2.2 + (s.size.2.2 : Int) else c.2.2))
    ∧ (∀ (s : Structure) (x y z : Nat), x < s.size.1 → y < s.size.2.1 → z < s.size.2.2 →
        s.grid x y z = -1 →
        s.get_block ((x : Int), (y : Int), (z : Int)) = some voidBlock) := by
  refine ⟨?_, ?_, ?_⟩
  · intro s c hoob
    rw [Structure.get_block]
    cases h1 : npIndex s.size.1 c.1 with
    | none => rfl
    | some x =>
      cases h2 : npIndex s.size.2.1 c.2.1 with
      | none => rfl
      | some y =>
        cases h3 : npIndex s.size.2.2 c.2.2 with
        | none => rfl
        | some z =>
          exfalso
          rcases hoob with h | h | h | h | h | h
          · rw [npIndex_oob (Or.inl h)] at h1; exact Option.noConfusion h1
          · rw [npIndex_oob (Or.inr h)] at h1; exact Option.noConfusion h1
          · rw [npIndex_oob (Or.inl h)] at h2; exact Option.noConfusion h2
          · rw [npIndex_oob (Or.inr h)] at h2; exact Option.noConfusion h2
          · rw [npIndex_oob (Or.inl h)] at h3; exact Option.noConfusion h3
          · rw [npIndex_oob (Or.inr h)] at h3; exact Option.noConfusion h3
  · intro s c ha1 hb1 ha2 hb2 ha3 hb3
    rw [Structure.get_block, Structure.get_block]
    rw [← npIndex_wrap ha1 hb1, ← npIndex_wrap ha2 hb2, ← npIndex_wrap ha3 hb3]
  · intro s x y z hx hy hz hvoid
    rw [get_block_nat hx hy hz, hvoid]
    simp

/-- C4 witness: the theorem applies to concrete cases — a positively
out-of-range coordinate fails, `(-1,0,0)` reads cell `(1,0,0)`, and a
void cell yields the sentinel. -/
theorem c4_bounds_amended_witness :
    (Structure.init (2, 1, 1) (some airBlock)).get_block (2, 0, 0) = none
    ∧ (Structure.init (2, 1, 1) (some airBlock)).get_block (-1, 0, 0)
        = (Structure.init (2, 1, 1) (some airBlock)).get_block (1, 0, 0)
    ∧ (Structure.init (1, 1, 1) none).get_block (0, 0, 0) = some voidBlock := by
  refine ⟨c4_bounds_amended.1 _ (2, 0, 0) (Or.inr (Or.inl (by decide))), ?_,
    c4_bounds_amended.2.2 (Structure.init (1, 1, 1) none) 0 0 0
      (by decide) (by decide) (by decide) rfl⟩
  have h := c4_bounds_amended.2.1 (Structure.init (2, 1, 1) (some airBlock)) (-1, 0, 0)
    (by decide) (by decide) (by decide) (by decide) (by decide) (by decide)
  exact h.trans (congrArg _ (by decide))

/-- C9 counterexample: a document whose flat index list holds `5` with
an empty palette is accepted by `load` (no palette-bounds validation,
no failure of any kind); the out-of-range index only surfaces later as
an `IndexError` from `get_block`. -/
theorem c9_no_bounds_check_counterexample :
    (Structure.load ⟨some (1, 1, 1), [5], [], [], []⟩).toOption.map
        (fun st => (st.size, st.get_block (0, 0, 0))) = some ((1, 1, 1), none) := by
  decide

/-- C9 (amended): `load` fails with `KeyError` when `size` is absent
and with `ValueError` (from numpy `reshape`) when the flat index count
differs from the size product — the library defines no `FormatError`
class; index values outside the palette bounds are not validated at
all: whenever the two length conditions hold, `load` publishes a fresh
fully populated structure of the declared size. -/
theorem c9_load_failures_amended :
    (∀ d : Doc, d.size = none → Structure.load d = .error .keyError)
    ∧ (∀ (d : Doc) (sz : Nat × Nat × Nat), d.size = some sz →
        d.primary.length ≠ volume sz → Structure.load d = .error .valueError)
    ∧ (∀ (d : Doc) (sz : Nat × Nat × Nat), d.size = some sz →
        d.primary.length = volume sz → d.blockPalette.length ≤ d.secondary.length →
        ∃ st, Structure.load d = .ok st ∧ st.size = sz) := by
  refine ⟨?_, ?_, ?_⟩
  · intro d hsize
    rw [Structure.load, hsize]
  · intro d sz hsize hne
    simp only [Structure.load, hsize]
    rw [if_neg hne]
  · intro d sz hsize hlen hple
    simp only [Structure.load, hsize]
    rw [if_pos hlen, if_pos hple]
    exact ⟨_, rfl, rfl⟩

/-- C9 witness: concrete instances for the three behaviors of `load`. -/
theorem c9_load_failures_amended_witness :
    Structure.load ⟨none, [], [], [], []⟩ = .error .keyError
    ∧ Structure.load ⟨some (2, 1, 1), [0], [], [], []⟩ = .error .valueError
    ∧ ∃ st, Structure.load ⟨some (1, 1, 1), [-1], [], [], []⟩ = .ok st
        ∧ st.size = (1, 1, 1) :=
  ⟨c9_load_failures_amended.1 _ rfl,
   c9_load_failures_amended.2.1 _ (2, 1, 1) rfl (by decide),
   c9_load_failures_amended.2.2 _ (1, 1, 1) rfl (by decide) (by decide)⟩

/-- C6: `resize(new_size, fill)` keeps every cell of the overlap region
(element-wise minimum of old and new size) unchanged — both at the index
level and as observed through `get_block`; every newly exposed in-bounds
cell holds the interned index of `fill` (so `-1` when `fill` is `None`);
and any query at a coordinate outside the new bounds fails with
`IndexError` (so shrinking silently drops content but out-of-range
queries after the shrink fail). -/
theorem c6_resize (s : Structure) (nsz : Nat × Nat × Nat) (fill : Option Block)
    (hwf : s.wf = true) :
    (s.resize nsz fill).size = nsz
    ∧ (∀ x y z : Nat, x < min s.size.1 nsz.1 → y < min s.size.2.1 nsz.2.1 →
        z < min s.size.2.2 nsz.2.2 →
        (s.resize nsz fill).grid x y z = s.grid x y z
        ∧ (s.resize nsz fill).get_block ((x : Int), (y : Int), (z : Int))
            = s.get_block ((x : Int), (y : Int), (z : Int)))
    ∧ (∀ x y z : Nat, x < nsz.1 → y < nsz.2.1 → z < nsz.2.2 →
        ¬(x < min s.size.1 nsz.1 ∧ y < min s.size.2.1 nsz.2.1
            ∧ z < min s.size.2.2 nsz.2.2) →
        (s.resize nsz fill).grid x y z = (addBlockToPalette s.palette fill).1
        ∧ (fill = none → (s.resize nsz fill).grid x y z = -1))
    ∧ (∀ x y z : Nat, nsz.1 ≤ x ∨ nsz.2.1 ≤ y ∨ nsz.2.2 ≤ z →
        (s.resize nsz fill).get_block ((x : Int), (y : Int), (z : Int)) = none) := by
  have hsize : (s.resize nsz fill).size = nsz := by
    simp only [Structure.resize]
    split
    · next heq => exact heq
    · rfl
  have hpal : (s.resize nsz fill).palette = (addBlockToPalette s.palette fill).2 := by
    simp only [Structure.resize]
    split <;> rfl
  have hgrid_overlap : ∀ x y z : Nat, x < min s.size.1 nsz.1 → y < min s.size.2.1 nsz.2.1 →
      z < min s.size.2.2 nsz.2.2 → (s.resize nsz fill).grid x y z = s.grid x y z := by
    intro x y z hx hy hz
    simp only [Structure.resize]
    split
    · rfl
    · show (if x < min s.size.1 nsz.1 ∧ y < min s.size.2.1 nsz.2.1
          ∧ z < min s.size.2.2 nsz.2.2 then s.grid x y z
          else (addBlockToPalette s.palette fill).1) = s.grid x y z
      rw [if_pos ⟨hx, hy, hz⟩]
  refine ⟨hsize, ?_, ?_, ?_⟩
  · intro x y z hx hy hz
    refine ⟨hgrid_overlap x y z hx hy hz, ?_⟩
    have hxs : x < s.size.1 := lt_of_lt_of_le hx (Nat.min_le_left _ _)
    have hys : y < s.size.2.1 := lt_of_lt_of_le hy (Nat.min_le_left _ _)
    have hzs : z < s.size.2.2 := lt_of_lt_of_le hz (Nat.min_le_left _ _)
    have hxn : x < (s.resize nsz fill).size.1 := by
      rw [hsize]; exact lt_of_lt_of_le hx (Nat.min_le_right _ _)
    have hyn : y < (s.resize nsz fill).size.2.1 := by
      rw [hsize]; exact lt_of_lt_of_le hy (Nat.min_le_right _ _)
    have hzn : z < (s.resize nsz fill).size.2.2 := by
      rw [hsize]; exact lt_of_lt_of_le hz (Nat.min_le_right _ _)
    rw [get_block_nat hxn hyn hzn, get_block_nat hxs hys hzs,
      hgrid_overlap x y z hx hy hz, hpal]
    obtain ⟨hlo, hhi⟩ := wf_spec hwf hxs hys hzs
    by_cases hpos : (0 : Int) ≤ s.grid x y z
    · rw [if_pos hpos, if_pos hpos]
      obtain ⟨t, ht⟩ := addPal_extends s.palette fill
      rw [ht]
      exact List.getElem?_append_left (by omega)
    · rw [if_neg hpos, if_neg hpos]
  · intro x y z hx hy hz hcon
    have hgridnew : (s.resize nsz fill).grid x y z = (addBlockToPalette s.palette fill).1 := by
      simp only [Structure.resize]
      split
      · next heq =>
        exfalso
        apply hcon
        rw [heq]
        simp only [Nat.min_self]
        exact ⟨hx, hy, hz⟩
      · show (if x < min s.size.1 nsz.1 ∧ y < min s.size.2.1 nsz.2.1
            ∧ z < min s.size.2.2 nsz.2.2 then s.grid x y z
            else (addBlockToPalette s.palette fill).1)
            = (addBlockToPalette s.palette fill).1
        rw [if_neg hcon]
    refine ⟨hgridnew, ?_⟩
    intro hfill
    subst hfill
    exact hgridnew
  · intro x y z h
    apply get_block_none
    rcases h with h | h | h
    · refine Or.inl ?_
      rw [hsize, npIndex_natCast, if_neg (by omega)]
    · refine Or.inr (Or.inl ?_)
      rw [hsize, npIndex_natCast, if_neg (by omega)]
    · refine Or.inr (Or.inr ?_)
      rw [hsize, npIndex_natCast, if_neg (by omega)]

/-- C6 witness: the spec's own example — a dirt-filled 2×2×2 resized to
4×4×4 with air keeps dirt at the overlap, puts the interned air index
at `(3,3,3)`, and after shrinking back a query at `(3,3,3)` fails. -/
theorem c6_resize_witness :
    ((Structure.init (2, 2, 2) (some dirtBlock)).resize (4, 4, 4) (some airBlock)).size
        = (4, 4, 4)
    ∧ ((Structure.init (2, 2, 2) (some dirtBlock)).resize (4, 4, 4)
        (some airBlock)).get_block (0, 0, 0)
        = (Structure.init (2, 2, 2) (some dirtBlock)).get_block (0, 0, 0)
    ∧ ((Structure.init (2, 2, 2) (some dirtBlock)).resize (4, 4, 4)
        (some airBlock)).grid 3 3 3
        = (addBlockToPalette (Structure.init (2, 2, 2) (some dirtBlock)).palette
            (some airBlock)).1
    ∧ (((Structure.init (2, 2, 2) (some dirtBlock)).resize (4, 4, 4)
        (some airBlock)).resize (2, 2, 2) (some airBlock)).get_block (3, 3, 3) = none := by
  refine ⟨(c6_resize (Structure.init (2, 2, 2) (some dirtBlock)) (4, 4, 4)
      (some airBlock) (by decide)).1,
    ((c6_resize (Structure.init (2, 2, 2) (some dirtBlock)) (4, 4, 4)
      (some airBlock) (by decide)).2.1 0 0 0 (by decide) (by decide) (by decide)).2,
    ((c6_resize (Structure.init (2, 2, 2) (some dirtBlock)) (4, 4, 4)
      (some airBlock) (by decide)).2.2.1 3 3 3 (by decide) (by decide) (by decide)
      (by decide)).1,
    (c6_resize ((Structure.init (2, 2, 2) (some dirtBlock)).resize (4, 4, 4)
      (some airBlock)) (2, 2, 2) (some airBlock) (by decide)).2.2.2 3 3 3
      (Or.inl (by decide))⟩

/-- C7: palette deduplication — `None` maps to `-1` without touching
the palette; interning a block with an `==`-equal entry returns that
entry's (first) index and leaves the palette unchanged; interning
preserves the pairwise-distinct palette invariant (so the palette never
holds two `==`-equal entries); and setting two `==`-equal blocks grows
the palette at most once: the second `set_block` leaves the palette
unchanged and `get_block` at both insertion points returns the same
palette entry, `==`-equal to the inserted block. -/
theorem c7_palette_dedup :
    (∀ pal : List Block, addBlockToPalette pal none = (-1, pal))
    ∧ (∀ (pal : List Block) (b : Block) (i : Nat),
        findIdxA (fun x => blockEq b x) pal = some i →
        addBlockToPalette pal (some b) = ((i : Int), pal))
    ∧ (∀ (pal : List Block) (ob : Option Block), palNoDup pal = true →
        palNoDup (addBlockToPalette pal ob).2 = true)
    ∧ (∀ pal : List Block, palNoDup pal = true →
        ∀ (i j : Nat) (e e' : Block), i < j → pal[i]? = some e → pal[j]? = some e' →
        blockEq e e' = false)
    ∧ (∀ (s : Structure) (c1 c2 : Int × Int × Int) (b b' : Block) (s1 s2 : Structure),
        blockEq b b = true → blockEq b b' = true →
        s.set_block c1 (some b) = some s1 → s1.set_block c2 (some b') = some s2 →
        s2.palette = s1.palette ∧ s1.palette.length ≤ s.palette.length + 1
        ∧ ∃ e, s1.get_block c1 = some e ∧ s2.get_block c2 = some e
            ∧ blockEq b e = true) := by
  refine ⟨fun pal => rfl, fun pal b i h => addPal_found h, ?_, ?_, ?_⟩
  · intro pal ob hnd
    cases ob with
    | none => exact hnd
    | some b =>
      cases hf : findIdxA (fun x => blockEq b x) pal with
      | some i => rw [addPal_found hf]; exact hnd
      | none =>
        rw [addPal_notfound hf]
        refine palNoDup_append hnd ?_
        intro x hx
        exact findIdxA_eq_none.mp hf x hx
  · exact fun pal hnd => palNoDup_pairwise hnd
  · intro s c1 c2 b b' s1 s2 hb hbb' h1 h2
    obtain ⟨x1, y1, z1, hn1, hn2, hn3, hs1⟩ := set_block_inv h1
    obtain ⟨x2, y2, z2, hm1, hm2, hm3, hs2⟩ := set_block_inv h2
    have hsize1 : s1.size = s.size := by rw [hs1]
    have hpal1 : s1.palette = (addBlockToPalette s.palette (some b)).2 := by rw [hs1]
    have hpal2 : s2.palette = (addBlockToPalette s1.palette (some b')).2 := by rw [hs2]
    have hrep := @addPal_repeat s.palette b b' hb hbb'
    have hpal2' : s2.palette = s1.palette := by
      rw [hpal2, hpal1, hrep]
    obtain ⟨j, hj, hjlt, e, he, hbe⟩ := @addPal_some_spec s.palette b hb
    have hident2 : (addBlockToPalette s1.palette (some b')).1
        = (addBlockToPalette s.palette (some b)).1 := by
      rw [hpal1, hrep]
    refine ⟨hpal2', by rw [hpal1]; exact addPal_length s.palette (some b), e, ?_, ?_, hbe⟩
    · have hn1' : npIndex s1.size.1 c1.1 = some x1 := by rw [hsize1]; exact hn1
      have hn2' : npIndex s1.size.2.1 c1.2.1 = some y1 := by rw [hsize1]; exact hn2
      have hn3' : npIndex s1.size.2.2 c1.2.2 = some z1 := by rw [hsize1]; exact hn3
      rw [get_block_resolved hn1' hn2' hn3']
      have hgrid1 : s1.grid x1 y1 z1 = (addBlockToPalette s.palette (some b)).1 := by
        rw [hs1]
        simp
      rw [hgrid1, hpal1, hj]
      rw [if_pos (by omega)]
      simp only [Int.toNat_natCast]
      exact he
    · have hsize2 : s2.size = s1.size := by rw [hs2]
      have hm1' : npIndex s2.size.1 c2.1 = some x2 := by rw [hsize2]; exact hm1
      have hm2' : npIndex s2.size.2.1 c2.2.1 = some y2 := by rw [hsize2]; exact hm2
      have hm3' : npIndex s2.size.2.2 c2.2.2 = some z2 := by rw [hsize2]; exact hm3
      rw [get_block_resolved hm1' hm2' hm3']
      have hgrid2 : s2.grid x2 y2 z2 = (addBlockToPalette s1.palette (some b')).1 := by
        rw [hs2]
        simp
      rw [hgrid2, hident2, hpal2', hpal1, hj]
      rw [if_pos (by omega)]
      simp only [Int.toNat_natCast]
      exact he

/-- C7 witness: concrete instances — `None` interning, dedup on a
found entry, invariant preservation, pairwise distinctness, and a
double insertion of equal dirt blocks into an air-filled structure. -/
theorem c7_palette_dedup_witness :
    addBlockToPalette [] none = (-1, [])
    ∧ addBlockToPalette [dirtBlock] (some dirtBlock) = (0, [dirtBlock])
    ∧ palNoDup (addBlockToPalette [airBlock] (some dirtBlock)).2 = true
    ∧ blockEq airBlock dirtBlock = false
    ∧ ∃ s1 s2,
        (Structure.init (2, 1, 1) (some airBlock)).set_block (0, 0, 0) (some dirtBlock)
          = some s1
        ∧ s1.set_block (1, 0, 0) (some dirtBlock) = some s2
        ∧ s2.palette = s1.palette
        ∧ ∃ e, s1.get_block (0, 0, 0) = some e ∧ s2.get_block (1, 0, 0) = some e
            ∧ blockEq dirtBlock e = true := by
  refine ⟨c7_palette_dedup.1 [], c7_palette_dedup.2.1 [dirtBlock] dirtBlock 0 (by decide),
    c7_palette_dedup.2.2.1 [airBlock] (some dirtBlock) (by decide), ?_, ?_⟩
  · exact c7_palette_dedup.2.2.2.1 [airBlock, dirtBlock] (by decide) 0 1 airBlock dirtBlock
      (by decide) (by decide) (by decide)
  · obtain ⟨s1, h1⟩ : ∃ s1, (Structure.init (2, 1, 1) (some airBlock)).set_block (0, 0, 0)
        (some dirtBlock) = some s1 := ⟨_, rfl⟩
    obtain ⟨s2, h2⟩ : ∃ s2, s1.set_block (1, 0, 0) (some dirtBlock) = some s2 := by
      obtain ⟨x, y, z, _, _, _, hs1⟩ := set_block_inv h1
      subst hs1
      exact ⟨_, rfl⟩
    obtain ⟨hpal, -, e, he1, he2, hbe⟩ := c7_palette_dedup.2.2.2.2
      (Structure.init (2, 1, 1) (some airBlock)) (0, 0, 0) (1, 0, 0) dirtBlock dirtBlock
      s1 s2 (by decide) (by decide) h1 h2
    exact ⟨s1, s2, h1, h2, hpal, e, he1, he2, hbe⟩

theorem wf_flat_bounds {s : Structure} (hwf : s.wf = true) :
    ∀ i ∈ buildGrid s.size s.grid, -1 ≤ i ∧ i < (s.palette.length : Int) := by
  intro i hi
  obtain ⟨x, y, z, hx, hy, hz, hv⟩ := buildGrid_mem hi
  subst hv
  exact wf_spec hwf hx hy hz

theorem as_nbt_total {s : Structure} (hwf : s.wf = true) (hpal : 0 < s.palette.length) :
    ∃ d, s.as_nbt = some d := by
  obtain ⟨r, hr⟩ := secList_total hpal (wf_flat_bounds hwf)
  refine ⟨{ size := some s.size, primary := buildGrid s.size s.grid, secondary := r.1,
            blockPalette := r.2.map (fun b => (b.identifier, b.states)),
            entities := s.entities }, ?_⟩
  simp only [Structure.as_nbt]
  rw [hr]

/-- C10: (i) with an empty palette and an in-grid void cell, `dump`
raises `IndexError` (the secondary layer indexes the empty palette);
(ii) with a non-empty palette free of waterlogged entries, the
secondary entry emitted for a void cell is `-1` — decided by the
palette, not by the cell; (iii) when the LAST palette entry is
waterlogged and the first cell is void, the void cell's secondary
entry is a water index: `palette[-1]` wraps to the last entry, so the
void cell is treated as waterlogged. -/
theorem c10_void_cells_serialization :
    (∀ (s : Structure) (x y z : Nat), x < s.size.1 → y < s.size.2.1 → z < s.size.2.2 →
        s.grid x y z = -1 → s.palette = [] → s.as_nbt = none)
    ∧ (∀ (s : Structure) (d : Doc) (k : Nat) (v : Int),
        (∀ b ∈ s.palette, b.waterlogged = false) → s.as_nbt = some d →
        d.primary[k]? = some (-1) → d.secondary[k]? = some v → v = -1)
    ∧ (∀ s : Structure, s.wf = true →
        0 < s.size.1 → 0 < s.size.2.1 → 0 < s.size.2.2 →
        (∃ bl, s.palette[s.palette.length - 1]? = some bl ∧ bl.waterlogged = true) →
        s.grid 0 0 0 = -1 →
        ∃ (d : Doc) (w : Nat), s.as_nbt = some d ∧ d.secondary[0]? = some ((w : Int))
          ∧ ∃ nm st2, d.blockPalette[w]? = some (nm, st2)
            ∧ nm = "minecraft:water" ∧ dictEq st2 waterBlock.states = true) := by
  refine ⟨?_, ?_, ?_⟩
  · intro s x y z hx hy hz hvoid hpal
    have hvol : 0 < volume s.size := Nat.lt_of_le_of_lt (Nat.zero_le _) (flatIdx_lt hx hy hz)
    have hlen := buildGrid_length s.size s.grid
    cases hflat : buildGrid s.size s.grid with
    | nil => rw [hflat] at hlen; simp at hlen; omega
    | cons j rest =>
      simp only [Structure.as_nbt]
      rw [hflat, hpal]
      have hnone : secondaryList [] (j :: rest) = none := by
        rw [secondaryList, secStep_eq_none (pyListGet_nil j)]
      rw [hnone]
  · intro s d k v hwl hnbt hkprim hksec
    obtain ⟨r, hr, hd⟩ := as_nbt_inv hnbt
    subst hd
    obtain ⟨-, hvals⟩ := secList_notwl hwl hr
    exact hvals k v hksec
  · intro s hwf h1 h2 h3 hlast hvoid
    obtain ⟨bl, hbl, hbwl⟩ := hlast
    have hpal : 0 < s.palette.length := by
      by_contra h0
      have : s.palette = [] := List.eq_nil_of_length_eq_zero (by omega)
      rw [this] at hbl
      simp at hbl
    obtain ⟨r, hr⟩ := secList_total hpal (wf_flat_bounds hwf)
    have hflat0 : (buildGrid s.size s.grid)[0]? = some (-1) := by
      have hb := buildGrid_get (f := s.grid) h1 h2 h3
      have hidx : flatIdx s.size 0 0 0 = 0 := by simp [flatIdx]
      rw [hidx] at hb
      rw [hb, hvoid]
    cases hflat : buildGrid s.size s.grid with
    | nil => rw [hflat] at hflat0; simp at hflat0
    | cons j rest =>
      rw [hflat] at hflat0 hr
      simp only [List.getElem?_cons_zero, Option.some.injEq] at hflat0
      subst hflat0
      obtain ⟨sr, q, hs, hq, hrq⟩ := secList_cons_inv hr
      have hglast : pyListGet s.palette (-1) = some bl := by
        rw [pyListGet_neg_one hpal]
        exact hbl
      have hstep := secStep_eq_some hglast
      rw [hbwl] at hstep
      simp only [if_true] at hstep
      rw [hstep] at hs
      simp only [Option.some.injEq] at hs
      obtain ⟨w, hw1, hw2⟩ := waterIdx_spec s.palette
      obtain ⟨t, ht⟩ := secList_extends hq
      have hfw : findIdxA (fun b => blockEq b waterBlock) q.2 = some w := by
        rw [ht, ← hs]
        exact findIdxA_append_left hw2
      obtain ⟨hwlt, ⟨e, hecand, hep⟩, -⟩ := findIdxA_some_spec hfw
      refine ⟨{ size := some s.size, primary := buildGrid s.size s.grid, secondary := r.1,
                blockPalette := r.2.map (fun b => (b.identifier, b.states)),
                entities := s.entities }, w, ?_, ?_, ?_⟩
      · simp only [Structure.as_nbt]
        rw [hflat, hr]
      · show r.1[0]? = some ((w : Int))
        rw [hrq]
        simp only [List.getElem?_cons_zero, Option.some.injEq]
        rw [← hs, hw1]
      · show ∃ nm st2, (r.2.map (fun b => (b.identifier, b.states)))[w]? = some (nm, st2)
          ∧ nm = "minecraft:water" ∧ dictEq st2 waterBlock.states = true
        rw [hrq]
        refine ⟨e.identifier, e.states, ?_, ?_, ?_⟩
        · rw [List.getElem?_map]
          show Option.map _ q.2[w]? = _
          rw [hecand]
          rfl
        · rw [blockEq, Bool.and_eq_true, Bool.and_eq_true] at hep
          exact of_decide_eq_true hep.1.1
        · rw [blockEq, Bool.and_eq_true, Bool.and_eq_true] at hep
          exact hep.1.2

/-- C10 witness: the theorem applies to concrete structures — a
never-mutated `Structure((1,1,1), None)` fails to dump; a dirt
structure with one void cell emits `-1` for it; and a structure whose
single palette entry is waterlogged dirt with a void first cell emits
a water index for the void cell. -/
theorem c10_void_cells_serialization_witness :
    (Structure.init (1, 1, 1) none).as_nbt = none
    ∧ ((2 : Int) - 3 = -1)
    ∧ ∃ (d : Doc) (w : Nat),
        (⟨(1, 1, 2), fun _ _ z => if z = 1 then 0 else -1, [wdirtBlock], []⟩ :
          Structure).as_nbt = some d
        ∧ d.secondary[0]? = some ((w : Int))
        ∧ ∃ nm st2, d.blockPalette[w]? = some (nm, st2)
          ∧ nm = "minecraft:water" ∧ dictEq st2 waterBlock.states = true := by
  refine ⟨c10_void_cells_serialization.1 (Structure.init (1, 1, 1) none) 0 0 0
      (by decide) (by decide) (by decide) rfl rfl, ?_, ?_⟩
  · have hv := c10_void_cells_serialization.2.1
      (⟨(2, 1, 1), fun x _ _ => if x = 0 then 0 else -1, [dirtBlock], []⟩ : Structure)
      ⟨some (2, 1, 1), [0, -1], [-1, -1], [("minecraft:dirt", [])], []⟩ 1 (2 - 3)
      (by decide) (by decide) (by decide) (by decide)
    omega
  · exact c10_void_cells_serialization.2.2
      (⟨(1, 1, 2), fun _ _ z => if z = 1 then 0 else -1, [wdirtBlock], []⟩ : Structure)
      (by decide) (by decide) (by decide) (by decide) ⟨wdirtBlock, by decide, rfl⟩ rfl

/-- C8: in the serialized output the secondary (waterlog) layer has
the same length as the primary layer; a cell holding a valid palette
index gets `-1` when its palette entry is not waterlogged, and
otherwise gets a single canonical water index `w` — the entry at `w`
in the serialized palette is a "minecraft:water, liquid depth 0"
block (inserted on demand), and every waterlogged cell of the
structure gets that same index `w` (deduplication). -/
theorem c8_secondary_layer (s : Structure) (d : Doc) (hnbt : s.as_nbt = some d) :
    d.secondary.length = d.primary.length
    ∧ ∀ (k : Nat) (i : Int), d.primary[k]? = some i → 0 ≤ i →
        i.toNat < s.palette.length →
        ∃ b, s.palette[i.toNat]? = some b
          ∧ (b.waterlogged = false → d.secondary[k]? = some (-1))
          ∧ (b.waterlogged = true → ∃ w : Nat, d.secondary[k]? = some ((w : Int))
              ∧ (∃ nm st2, d.blockPalette[w]? = some (nm, st2)
                  ∧ nm = "minecraft:water" ∧ dictEq st2 waterBlock.states = true)
              ∧ ∀ (k' : Nat) (i' : Int) (b' : Block), d.primary[k']? = some i' →
                  0 ≤ i' → s.palette[i'.toNat]? = some b' → b'.waterlogged = true →
                  d.secondary[k']? = some ((w : Int))) := by
  obtain ⟨r, hr, hd⟩ := as_nbt_inv hnbt
  subst hd
  constructor
  · show r.1.length = (buildGrid s.size s.grid).length
    exact secList_length hr
  · intro k i hk hi hlen
    have hk' : (buildGrid s.size s.grid)[k]? = some i := hk
    obtain ⟨b, hb, hfalse, htrue⟩ := secList_get hr hk' hi hlen
    refine ⟨b, hb, hfalse, ?_⟩
    intro hwl
    obtain ⟨w, hw1, hw2⟩ := htrue hwl
    obtain ⟨hwlt, ⟨e, hecand, hep⟩, -⟩ := findIdxA_some_spec hw2
    refine ⟨w, hw1, ?_, ?_⟩
    · refine ⟨e.identifier, e.states, ?_, ?_, ?_⟩
      · show (r.2.map (fun b => (b.identifier, b.states)))[w]? = _
        rw [List.getElem?_map, hecand]
        rfl
      · rw [blockEq, Bool.and_eq_true, Bool.and_eq_true] at hep
        exact of_decide_eq_true hep.1.1
      · rw [blockEq, Bool.and_eq_true, Bool.and_eq_true] at hep
        exact hep.1.2
    · intro k' i' b' hk2 hi2 hb2 hwl2
      have hlen2 : i'.toNat < s.palette.length := by
        by_contra h0
        rw [List.getElem?_eq_none (by omega)] at hb2
        exact Option.noConfusion hb2
      obtain ⟨b'', hb'', -, htrue2⟩ := secList_get hr hk2 hi2 hlen2
      have hbe : b'' = b' := by
        rw [hb''] at hb2
        exact (Option.some.injEq _ _ ▸ hb2).symm ▸ rfl
      subst hbe
      obtain ⟨w', hw1', hw2'⟩ := htrue2 hwl2
      have : w' = w := by
        rw [hw2] at hw2'
        injection hw2' with hww
        exact hww.symm
      subst this
      exact hw1'

/-- C8 witness: a concrete 4×1×1 structure whose cell 0 is waterlogged
dirt and cells 1–3 are air; the theorem yields the instance facts. -/
theorem c8_secondary_layer_witness :
    (⟨(4, 1, 1), fun x _ _ => if x = 0 then 1 else 0, [airBlock, wdirtBlock], []⟩ :
        Structure).as_nbt
      = some ⟨some (4, 1, 1), [1, 0, 0, 0], [2, -1, -1, -1],
          [("minecraft:air", []), ("minecraft:dirt", []),
            ("minecraft:water", [("liquid_depth", StateValue.intv 0)])], []⟩
    ∧ (some ⟨some (4, 1, 1), [1, 0, 0, 0], [2, -1, -1, -1],
          [("minecraft:air", []), ("minecraft:dirt", []),
            ("minecraft:water", [("liquid_depth", StateValue.intv 0)])], []⟩ :
          Option Doc).all (fun d => d.secondary.length == d.primary.length)
    ∧ (∃ b, ([airBlock, wdirtBlock] : List Block)[(1 : Int).toNat]? = some b
        ∧ (b.waterlogged = false →
            ([2, -1, -1, -1] : List Int)[0]? = some (-1))
        ∧ (b.waterlogged = true → ∃ w : Nat,
            ([2, -1, -1, -1] : List Int)[0]? = some ((w : Int)))) := by
  have hnbt : (⟨(4, 1, 1), fun x _ _ => if x = 0 then 1 else 0,
      [airBlock, wdirtBlock], []⟩ : Structure).as_nbt
      = some ⟨some (4, 1, 1), [1, 0, 0, 0], [2, -1, -1, -1],
          [("minecraft:air", []), ("minecraft:dirt", []),
            ("minecraft:water", [("liquid_depth", StateValue.intv 0)])], []⟩ := by
    decide
  have h := c8_secondary_layer _ _ hnbt
  refine ⟨hnbt, by rw [Option.all_some, h.1]; exact beq_self_eq_true _, ?_⟩
  obtain ⟨b, hb, hfalse, htrue⟩ := h.2 0 1 (by decide) (by decide) (by decide)
  refine ⟨b, hb, fun hwl => hfalse hwl, fun hwl => ?_⟩
  obtain ⟨w, hw1, -, -⟩ := htrue hwl
  exact ⟨w, hw1⟩

/-- C1: the dump/load round trip is broken — on a 4×1×1 air structure
with waterlogged dirt set at the origin, the reloaded structure has
the same size but `get_block` disagrees: the waterlogged-dirt cell
comes back as plain (non-waterlogged) dirt and the air cell at
`(1,0,0)` comes back as WATERLOGGED air, because `load` indexes the
per-cell waterlog layer by palette position. -/
theorem c1_roundtrip_waterlog_bug :
    (((Structure.init (4, 1, 1) (some airBlock)).set_block (0, 0, 0)
          (some wdirtBlock)).bind fun s1 =>
        (s1.dump).bind fun d =>
          (Structure.load d).toOption.map fun s2 =>
            (s2.size == s1.size, s1.get_block (0, 0, 0), s2.get_block (0, 0, 0),
              s1.get_block (1, 0, 0), s2.get_block (1, 0, 0)))
      = some (true, some wdirtBlock, some dirtBlock, some airBlock,
          some ⟨"minecraft:air", [], true⟩)
    ∧ dirtBlock ≠ wdirtBlock
    ∧ airBlock ≠ (⟨"minecraft:air", [], true⟩ : Block) := by
  refine ⟨by decide, by decide, by decide⟩

/-- C5 counterexample: combining a 2×1×1 air structure with a 1×1×1
dirt structure at position `(0,0,0)` broadcast-replicates the dirt
over the whole remaining region, so cell `(1,0,0)` — covered by
`self` only — does NOT keep self's air but becomes dirt. -/
theorem c5_combine_broadcast_counterexample :
    ((Structure.init (2, 1, 1) (some airBlock)).combine
        (Structure.init (1, 1, 1) (some dirtBlock)) (0, 0, 0)).toOption.map
      (fun c => (c.size, c.get_block (0, 0, 0), c.get_block (1, 0, 0)))
      = some ((2, 1, 1), some dirtBlock, some dirtBlock)
    ∧ dirtBlock ≠ airBlock := by
  refine ⟨by decide, by decide⟩

theorem bcast_self (n i : Nat) : bcast n n i = i := by
  rw [bcast, if_pos rfl]

theorem combineOk_size (s o : Structure) (px py pz : Nat) :
    (combineOk s o px py pz).size = (max s.size.1 (px + o.size.1),
      max s.size.2.1 (py + o.size.2.1), max s.size.2.2 (pz + o.size.2.2)) := rfl

theorem combineOk_grid (s o : Structure) (px py pz : Nat) :
    (combineOk s o px py pz).grid = combineGrid s o px py pz := rfl

theorem combineOk_palette (s o : Structure) (px py pz : Nat) :
    (combineOk s o px py pz).palette = (internAll s.palette o.palette).2 := rfl

/-- C5 (amended): `combine` fails with `ValueError` on any negative
position component; and whenever the translated `other` box reaches at
least as far as `self` on every axis (so the numpy overlay is not
broadcast), the combined structure has size
`max(self.size, position + other.size)` per axis, cells covered by
`self` but not by the translated `other` keep self's block, cells
covered by the translated `other` hold other's block remapped through
the old-index→new-index palette map (the later write winning on
overlap), and cells covered by neither are structure void. -/
theorem c5_combine_amended :
    (∀ (s o : Structure) (p : Int × Int × Int),
        (p.1 < 0 ∨ p.2.1 < 0 ∨ p.2.2 < 0) → s.combine o p = .error .valueError)
    ∧ (∀ (s o : Structure) (px py pz : Nat),
        s.wf = true → o.wf = true → (o.palette.all fun b => blockEq b b) = true →
        s.size.1 ≤ px + o.size.1 → s.size.2.1 ≤ py + o.size.2.1 →
        s.size.2.2 ≤ pz + o.size.2.2 →
        ∃ c, s.combine o ((px : Int), (py : Int), (pz : Int)) = .ok c
          ∧ c.size = (max s.size.1 (px + o.size.1), max s.size.2.1 (py + o.size.2.1),
              max s.size.2.2 (pz + o.size.2.2))
          ∧ (∀ x y z : Nat, x < s.size.1 → y < s.size.2.1 → z < s.size.2.2 →
              ¬(px ≤ x ∧ py ≤ y ∧ pz ≤ z) →
              c.get_block ((x : Int), (y : Int), (z : Int))
                = s.get_block ((x : Int), (y : Int), (z : Int)))
          ∧ (∀ x y z : Nat, x < o.size.1 → y < o.size.2.1 → z < o.size.2.2 →
              ∃ bo bc, o.get_block ((x : Int), (y : Int), (z : Int)) = some bo
                ∧ c.get_block (((px + x : Nat) : Int), ((py + y : Nat) : Int),
                    ((pz + z : Nat) : Int)) = some bc
                ∧ blockEq bo bc = true)
          ∧ (∀ x y z : Nat, x < c.size.1 → y < c.size.2.1 → z < c.size.2.2 →
              ¬(x < s.size.1 ∧ y < s.size.2.1 ∧ z < s.size.2.2) →
              ¬(px ≤ x ∧ py ≤ y ∧ pz ≤ z) →
              c.get_block ((x : Int), (y : Int), (z : Int)) = some voidBlock)) := by
  constructor
  · intro s o p hneg
    rw [Structure.combine, if_pos hneg]
  · intro s o px py pz hwfs hwfo hself h1 h2 h3
    have e1 : max s.size.1 (px + o.size.1) - px = o.size.1 := by omega
    have e2 : max s.size.2.1 (py + o.size.2.1) - py = o.size.2.1 := by omega
    have e3 : max s.size.2.2 (pz + o.size.2.2) - pz = o.size.2.2 := by omega
    have hcomb : s.combine o ((px : Int), (py : Int), (pz : Int))
        = .ok (combineOk s o px py pz) := by
      simp only [Structure.combine, Int.toNat_natCast]
      rw [if_neg (by omega), if_pos ⟨Or.inl (by omega), Or.inl (by omega),
        Or.inl (by omega)⟩]
    obtain ⟨tpal, htpal⟩ := (internAll_spec o.palette s.palette hself).2.1
    refine ⟨combineOk s o px py pz, hcomb, combineOk_size s o px py pz, ?_, ?_, ?_⟩
    · intro x y z hx hy hz hno
      have hgrid : combineGrid s o px py pz x y z = s.grid x y z := by
        rw [combineGrid, if_neg hno, if_pos ⟨hx, hy, hz⟩]
      have hxs : x < (combineOk s o px py pz).size.1 := by
        show x < max s.size.1 (px + o.size.1)
        omega
      have hys : y < (combineOk s o px py pz).size.2.1 := by
        show y < max s.size.2.1 (py + o.size.2.1)
        omega
      have hzs : z < (combineOk s o px py pz).size.2.2 := by
        show z < max s.size.2.2 (pz + o.size.2.2)
        omega
      rw [get_block_nat hxs hys hzs, get_block_nat hx hy hz, combineOk_grid,
        combineOk_palette, hgrid]
      obtain ⟨hlo, hhi⟩ := wf_spec hwfs hx hy hz
      by_cases hpos : (0 : Int) ≤ s.grid x y z
      · rw [if_pos hpos, if_pos hpos, htpal]
        exact List.getElem?_append_left (by omega)
      · rw [if_neg hpos, if_neg hpos]
    · intro x y z hx hy hz
      have hgrid : combineGrid s o px py pz (px + x) (py + y) (pz + z)
          = remapIdx (internAll s.palette o.palette).1 o.palette.length
              (o.grid x y z) := by
        rw [combineGrid, if_pos ⟨Nat.le_add_right _ _, Nat.le_add_right _ _,
          Nat.le_add_right _ _⟩, e1, e2, e3, bcast_self, bcast_self, bcast_self,
          Nat.add_sub_cancel_left, Nat.add_sub_cancel_left, Nat.add_sub_cancel_left]
      have hxs : px + x < (combineOk s o px py pz).size.1 := by
        show px + x < max s.size.1 (px + o.size.1)
        omega
      have hys : py + y < (combineOk s o px py pz).size.2.1 := by
        show py + y < max s.size.2.1 (py + o.size.2.1)
        omega
      have hzs : pz + z < (combineOk s o px py pz).size.2.2 := by
        show pz + z < max s.size.2.2 (pz + o.size.2.2)
        omega
      obtain ⟨hlo, hhi⟩ := wf_spec hwfo hx hy hz
      rw [get_block_nat hxs hys hzs, get_block_nat hx hy hz, combineOk_grid,
        combineOk_palette, hgrid]
      by_cases hpos : (0 : Int) ≤ o.grid x y z
      · have hklen : (o.grid x y z).toNat < o.palette.length := by omega
        have hoget : o.palette[(o.grid x y z).toNat]?
            = some (o.palette.get ⟨(o.grid x y z).toNat, hklen⟩) :=
          List.getElem?_eq_getElem hklen
        obtain ⟨j, hj, e0, he0, hbe0⟩ := (internAll_spec o.palette s.palette hself).2.2
          (o.grid x y z).toNat (o.palette.get ⟨(o.grid x y z).toNat, hklen⟩) hoget
        have hremap : remapIdx (internAll s.palette o.palette).1 o.palette.length
            (o.grid x y z) = (j : Int) := by
          rw [remapIdx, if_pos ⟨hpos, by omega⟩, hj]
          rfl
        rw [hremap, if_pos hpos, hoget, if_pos (by omega)]
        simp only [Int.toNat_natCast]
        exact ⟨_, _, rfl, he0, hbe0⟩
      · have hneg : o.grid x y z = -1 := by omega
        have hremap : remapIdx (internAll s.palette o.palette).1 o.palette.length
            (o.grid x y z) = -1 := by
          rw [remapIdx, if_neg (by omega), hneg]
        rw [hremap, if_neg hpos, if_neg (by omega)]
        exact ⟨voidBlock, voidBlock, rfl, rfl, by decide⟩
    · intro x y z hx hy hz hnos hnop
      have hgrid : combineGrid s o px py pz x y z = -1 := by
        rw [combineGrid, if_neg hnop, if_neg hnos]
      rw [get_block_nat hx hy hz, combineOk_grid, combineOk_palette, hgrid,
        if_neg (by omega)]

/-- C5 witness: a negative position fails, and the spec's example —
1×2×2 air combined with 1×2×2 dirt at `(0,1,1)` — has size `(1,3,3)`,
air at `(0,0,0)`, dirt (the overlaid structure's block) at `(0,1,1)`,
and structure void at `(0,2,0)`. -/
theorem c5_combine_amended_witness :
    (Structure.init (1, 2, 2) (some airBlock)).combine
        (Structure.init (1, 2, 2) (some dirtBlock)) (0, -1, 0) = .error .valueError
    ∧ ∃ c, (Structure.init (1, 2, 2) (some airBlock)).combine
          (Structure.init (1, 2, 2) (some dirtBlock)) (0, 1, 1) = .ok c
        ∧ c.size = (1, 3, 3)
        ∧ c.get_block (0, 0, 0)
            = (Structure.init (1, 2, 2) (some airBlock)).get_block (0, 0, 0)
        ∧ (∃ bo bc, (Structure.init (1, 2, 2) (some dirtBlock)).get_block (0, 0, 0)
              = some bo ∧ c.get_block (0, 1, 1) = some bc ∧ blockEq bo bc = true)
        ∧ c.get_block (0, 2, 0) = some voidBlock := by
  refine ⟨c5_combine_amended.1 _ _ (0, -1, 0) (Or.inr (Or.inl (by decide))), ?_⟩
  obtain ⟨c, hc, hsize, hself, hother, hneither⟩ := c5_combine_amended.2
    (Structure.init (1, 2, 2) (some airBlock)) (Structure.init (1, 2, 2) (some dirtBlock))
    0 1 1 (by decide) (by decide) (by decide) (by decide) (by decide) (by decide)
  have hsize' : c.size = (1, 3, 3) := by
    rw [hsize]
    decide
  refine ⟨c, hc, hsize', hself 0 0 0 (by decide) (by decide) (by decide) (by decide),
    hother 0 0 0 (by decide) (by decide) (by decide), ?_⟩
  exact hneither 0 2 0 (by rw [hsize']; decide) (by rw [hsize']; decide)
    (by rw [hsize']; decide) (by decide) (by decide)

end Mcstructure
